import Mathlib

/-!
# mihomo-check: the validation pipeline of `check/check.go`

A shallow embedding of `Check`, `GetProxyFromSubs` and `CreateClient` and of the
worker body that `Check` runs for every candidate, followed by the properties
of the pipeline.

Modelling conventions.

* A Go `map[string]any` is an association list with unique-key update
  (`mapSet`) and first-match lookup (`mapGet`).
* A Go `error` is an `Option String` (`none` is `nil`); a check returning
  `(bool, error)` is a pair `Bool × Option String`.
* The `int32` counters `progress` and `availableCount` are integers that wrap
  around modulo `2 ^ 32` (`wrap32`), as `++` does in Go.
* Network collaborators (the mihomo adapter parser, the platform probes, the
  IP and country lookups, the subscription download) are fields of `Env`, and
  so is the deduplicator; the name registry of package `proxy` is the
  parameter `Names`. Neither package is part of `check.go`: `Rename`,
  `ResetRenameCounter` and `DeduplicateProxies` below follow the spec.
* `workerBody` is the loop body of lines 100-153 run from its first line to
  its last. The pool of `Check` interleaves the bodies of its workers: a
  worker's body is cut at its accesses to shared state (the receive from
  `tasks`, `progress++`, `Rename`, `availableCount++`, the send on
  `resultChan`), a busy worker is a `Local`, and `Env.pick` chooses at every
  step which enabled worker moves (`poolStep`). The pool runs until no worker
  can move, which is what `wg.Wait()` waits for.
* `State.results` holds the Results sent on `resultChan`, in the order of the
  sends. The collector goroutine of lines 167-171 is not waited for: its last
  `append` may or may not be visible when line 181 reads `results`
  (`Env.collectorDone`), so `Check` returns the Results sent or all of them
  but the last.
* `State.trace` is a log of the calls and counter updates performed, in the
  order they happen; it is how "this call was not made" is stated. In the
  pool, the calls of a worker that touch no shared state (the client and the
  probes) are logged with its next access to shared state.
  `Pool.origins` records, for each Result sent, the candidate it was built
  from, as that candidate was received from the queue.
* The progress printer (lines 69-91) only reads the state, but line 82 passes
  `int(percent/2)` to `strings.Repeat`, which panics on a negative count:
  `percent` is NaN when there is no candidate and negative once `progress`
  has wrapped. Whether a poll happens then, and what `int(NaN)` is, is
  `Env.printerPanics`. Logging is left out.
-/

namespace MihomoCheck

/-! ## Data model -/

/-- A value stored in a candidate's property bag (Go `any`, as decoded from YAML). -/
inductive Value where
  | null
  | bool (b : Bool)
  | int (i : Int)
  | str (s : String)
  | composite (yaml : String)
  deriving DecidableEq, Repr

/-- A candidate: Go `map[string]any`. -/
abbrev Proxy := List (String × Value)

/-- Map read `m[k]`. -/
def mapGet {β : Type} (m : List (String × β)) (k : String) : Option β :=
  match m with
  | [] => none
  | (k', v) :: rest => if k' = k then some v else mapGet rest k

/-- Map write `m[k] = v`. -/
def mapSet {β : Type} (m : List (String × β)) (k : String) (v : β) : List (String × β) :=
  match m with
  | [] => [(k, v)]
  | (k', v') :: rest => if k' = k then (k, v) :: rest else (k', v') :: mapSet rest k v

/-- Go `type Result struct` (lines 25-33). -/
structure Result where
  Proxy : Proxy
  Openai : Bool
  Youtube : Bool
  Netflix : Bool
  Google : Bool
  Cloudflare : Bool
  Disney : Bool
  deriving DecidableEq, Repr

/-- The fields of `config.GlobalConfig` that `check.go` reads. -/
structure Config where
  Concurrent : Int
  Timeout : Int
  PrintProgress : Bool
  SubUrls : List String
  deriving DecidableEq, Repr

/-- The proxy adapter `adapter.ParseProxy` returns (an opaque handle). -/
structure Adapter where
  id : Nat
  deriving DecidableEq, Repr

/-- Two's-complement wrap of a 64-bit signed integer. -/
def wrap64 (x : Int) : Int := (x + 2 ^ 63) % 2 ^ 64 - 2 ^ 63

/-- Two's-complement wrap of a 32-bit signed integer (`int32` arithmetic). -/
def wrap32 (x : Int) : Int := (x + 2 ^ 31) % 2 ^ 32 - 2 ^ 31

/-- The `*http.Client` built by `CreateClient` (lines 257-279); durations in nanoseconds. -/
structure Client where
  Timeout : Int
  proxy : Adapter
  IdleConnTimeout : Int
  DisableKeepAlives : Bool
  deriving DecidableEq, Repr

/-- What one subscription's `config["proxies"]` holds after YAML decoding. -/
inductive ProxiesField where
  | absent
  | notList
  | list (items : List (Option Proxy))
  deriving DecidableEq, Repr

/-- What downloading and decoding one subscription URL ends in, once the retry loop is
over (lines 197-233): the GET failed, the body could not be read, the YAML did not parse,
or a document was decoded. -/
inductive SubResponse where
  | getFailed (err : String)
  | readFailed (err : String)
  | badYaml
  | document (proxies : ProxiesField)
  deriving DecidableEq, Repr

/-- The external collaborators of `check.go`. -/
structure Env where
  fetch : String → SubResponse
  ParseProxy : Proxy → Except String Adapter
  CheckCloudflare : Client → Bool × Option String
  CheckGoogle : Client → Bool × Option String
  CheckOpenai : Client → Bool × Option String
  CheckYoutube : Client → Bool × Option String
  CheckNetflix : Client → Bool × Option String
  CheckDisney : Client → Bool × Option String
  GetIPaddrFromAPI : Client → String
  GetIPCountrynameFromdb : String → String
  DeduplicateProxies : List Proxy → List Proxy
  pick : Nat → Nat
  collectorDone : Bool
  printerPanics : Bool

/-- The name registry operations of package `proxy` that `Check` calls. -/
structure Names (ρ : Type) where
  ResetRenameCounter : ρ → ρ
  Rename : ρ → String → String × ρ

/-- Calls and counter updates of the worker body, in program order. -/
inductive Event where
  | CreateClient
  | incProgress
  | CheckCloudflare
  | CheckGoogle
  | CheckOpenai
  | CheckYoutube
  | CheckNetflix
  | CheckDisney
  | GetIPaddrFromAPI
  | GetIPCountrynameFromdb
  | Rename
  | incAvailable
  | send
  | assertPanic
  deriving DecidableEq, Repr

/-- Shared state of one run of `Check`. -/
structure State (ρ : Type) where
  progress : Int
  availableCount : Int
  registry : ρ
  results : List Result
  trace : List Event
  deriving DecidableEq, Repr

/-- A process calls `os.Exit`, is brought down by a panic, or returns. -/
inductive Exec (α : Type) where
  | exited (code : Int)
  | panicked (msg : String)
  | returned (a : α)
  deriving DecidableEq, Repr

/-- Where a worker stands inside the loop body: it has received `proxy` (line 99); it
has built the client and incremented `progress` (line 107); it has renamed the candidate
(line 138) and holds the fields of its Result; it has incremented `availableCount`
(line 142) and is about to send. `origin` is the candidate as it was received. -/
inductive Local where
  | taken (proxy : Proxy)
  | bound (proxy : Proxy) (httpClient : Client)
  | renamed (origin : Proxy) (result : Result)
  | counted (origin : Proxy) (result : Result)
  deriving DecidableEq, Repr

/-- The worker pool: the shared state, the buffered channel `tasks`, the workers that
are inside the loop body, and the candidates of the Results sent so far. -/
structure Pool (ρ : Type) where
  shared : State ρ
  tasks : List Proxy
  busy : List Local
  origins : List Proxy
  deriving DecidableEq, Repr

/-- What `Check` returns (a nil slice is the empty list), with the shared state at that point. -/
structure Run (ρ : Type) where
  results : List Result
  err : Option String
  final : State ρ
  deriving DecidableEq, Repr

/-! ## The name registry -/

/-- The registry of package `proxy`: base label to the counter stored for it. -/
abbrev Registry := List (String × Nat)

/-- Modelled from the spec: `proxy.ResetRenameCounter` is not among the sources;
the registry "must be explicitly reset at the start of each run". -/
def ResetRenameCounter (_ : Registry) : Registry := []

/-- Modelled from the spec: `proxy.Rename` is not among the sources. Spec 4.5: look up
the label in the NameRegistry; if absent, insert with counter 1 and keep the label
unchanged; if present with counter k, increment to k+1 and append a dash and k+1 (in
decimal) to the label, so that the first collision gives the suffix -2. -/
def Rename (reg : Registry) (name : String) : String × Registry :=
  match mapGet reg name with
  | none => (name, mapSet reg name 1)
  | some k => (name ++ "-" ++ toString (k + 1), mapSet reg name (k + 1))

/-- The registry operations as the spec describes them. -/
def proxyutils : Names Registry := ⟨ResetRenameCounter, Rename⟩

/-! ## The deduplicator -/

/-- Modelled from the spec: the fingerprint of package `proxy` is not among the sources.
"A canonical, order-independent identity derived from the connection-defining fields
(protocol, host, port, credentials) - excludes the display-name field"; the fields are
read under mihomo's keys `type`, `server`, `port`, `password` and `uuid`, and a candidate
without one of the first three has no fingerprint. -/
def fingerprint (p : Proxy) : Option (Value × Value × Value × Option Value × Option Value) :=
  match mapGet p "type", mapGet p "server", mapGet p "port" with
  | some t, some h, some n => some (t, h, n, mapGet p "password", mapGet p "uuid")
  | _, _, _ => none

/-- Modelled from the spec: the deduplication loop, given the fingerprints seen so far. -/
def dedupFrom (seen : List (Value × Value × Value × Option Value × Option Value))
    (proxies : List Proxy) : List Proxy :=
  match proxies with
  | [] => []
  | p :: rest =>
    match fingerprint p with
    | none => dedupFrom seen rest
    | some f => if f ∈ seen then dedupFrom seen rest else p :: dedupFrom (f :: seen) rest

/-- Modelled from the spec: `proxy.DeduplicateProxies` is not among the sources. "For each
entry, compute its fingerprint; if a required identity field is missing or malformed, drop
the entry. Emit entries in first-seen order, dropping any whose fingerprint already
appeared." -/
def DeduplicateProxies (proxies : List Proxy) : List Proxy := dedupFrom [] proxies

/-! ## The code of `check.go` -/

/-- `CreateClient` (lines 251-280). -/
def CreateClient (env : Env) (cfg : Config) (mapping : Proxy) : Option Client :=
  match env.ParseProxy mapping with
  | .error _ => none
  | .ok proxy =>
    some { Timeout := wrap64 (wrap64 cfg.Timeout * 1000000)
           proxy := proxy
           IdleConnTimeout := 5 * 1000000000
           DisableKeepAlives := true }

/-- Items of one `proxies` list that are string-keyed maps (lines 235-241). -/
def appendProxyMaps (proxies : List Proxy) (proxyList : List (Option Proxy)) : List Proxy :=
  match proxyList with
  | [] => proxies
  | none :: rest => appendProxyMaps proxies rest
  | some proxyMap :: rest => appendProxyMaps (proxies ++ [proxyMap]) rest

/-- The loop over `SubUrls` of `GetProxyFromSubs` (lines 195-242). -/
def fetchSubs (env : Env) (subUrls : List String) (proxies : List Proxy) :
    Except String (List Proxy) :=
  match subUrls with
  | [] => .ok proxies
  | subUrl :: rest =>
    match env.fetch subUrl with
    | .getFailed err => .error ("获取订阅链接失败: " ++ err)
    | .readFailed err => .error ("读取配置文件失败: " ++ err)
    | .badYaml => fetchSubs env rest proxies
    | .document .absent => fetchSubs env rest proxies
    | .document .notList => fetchSubs env rest proxies
    | .document (.list proxyList) => fetchSubs env rest (appendProxyMaps proxies proxyList)

/-- `GetProxyFromSubs` (lines 184-249). -/
def GetProxyFromSubs (env : Env) (cfg : Config) : Exec (Except String (List Proxy)) :=
  if cfg.SubUrls.length = 0 then .exited 1
  else
    match fetchSubs env cfg.SubUrls [] with
    | .error e => .returned (.error e)
    | .ok proxies =>
      if proxies.length = 0 then .returned (.error "未找到任何可用节点")
      else .returned (.ok proxies)

/-- Append one event to the log. -/
def State.log {ρ : Type} (st : State ρ) (e : Event) : State ρ :=
  { st with trace := st.trace ++ [e] }

/-- The type assertion `proxy["name"].(string)` of line 138. -/
def nameString (proxy : Proxy) : Option String :=
  match mapGet proxy "name" with
  | some (.str s) => some s
  | _ => none

/-- The body of the worker loop `for proxy := range tasks` (lines 100-153). -/
def workerBody {ρ : Type} (env : Env) (nm : Names ρ) (cfg : Config)
    (st : State ρ) (proxy : Proxy) : State ρ :=
  let st := st.log .CreateClient
  match CreateClient env cfg proxy with
  | none => st
  | some httpClient =>
    let st := { st with progress := wrap32 (st.progress + 1) }.log .incProgress
    let st := st.log .CheckCloudflare
    let (cloudflare, err) := env.CheckCloudflare httpClient
    if err.isSome || !cloudflare then st
    else
      let st := st.log .CheckGoogle
      let (google, err) := env.CheckGoogle httpClient
      if err.isSome || !google then st
      else
        let st := st.log .CheckOpenai
        let (openai, _) := env.CheckOpenai httpClient
        let st := st.log .CheckYoutube
        let (youtube, _) := env.CheckYoutube httpClient
        let st := st.log .CheckNetflix
        let (netflix, _) := env.CheckNetflix httpClient
        let st := st.log .CheckDisney
        let (disney, _) := env.CheckDisney httpClient
        let st := st.log .GetIPaddrFromAPI
        let ipfromapi := env.GetIPaddrFromAPI httpClient
        let st := st.log .GetIPCountrynameFromdb
        let country := env.GetIPCountrynameFromdb ipfromapi
        let proxy :=
          if country ≠ "" then mapSet proxy "name" (.str country)
          else mapSet proxy "name" (.str "未识别")
        match nameString proxy with
        | none => st.log .assertPanic
        | some name =>
          let st := st.log .Rename
          let (renamed, registry) := nm.Rename st.registry name
          let st := { st with registry := registry }
          let proxy := mapSet proxy "name" (.str renamed)
          let st := { st with availableCount := wrap32 (st.availableCount + 1) }.log .incAvailable
          let st := st.log .send
          { st with
            results := st.results ++
              [{ Proxy := proxy
                 Cloudflare := cloudflare
                 Google := google
                 Openai := openai
                 Youtube := youtube
                 Netflix := netflix
                 Disney := disney }] }

/-- One worker's loop `for proxy := range tasks` over the tasks it receives. -/
def workerLoop {ρ : Type} (env : Env) (nm : Names ρ) (cfg : Config)
    (st : State ρ) (tasks : List Proxy) : State ρ :=
  match tasks with
  | [] => st
  | proxy :: rest => workerLoop env nm cfg (workerBody env nm cfg st proxy) rest

/-- The worker count `threadCount` of lines 53-57. -/
def threadCount (cfg : Config) (proxyCount : Int) : Int :=
  if proxyCount < cfg.Concurrent then proxyCount else cfg.Concurrent

/-- Number of goroutines started by `for i := 0; i < threadCount; i++` (lines 95-156). -/
def workersStarted (threadCount : Int) : Nat := threadCount.toNat

/-- Lines 100-107 of the loop body: build the client, then `progress++`. -/
def bindStep {ρ : Type} (env : Env) (cfg : Config) (st : State ρ) (proxy : Proxy) :
    State ρ × Option Local :=
  let st := st.log .CreateClient
  match CreateClient env cfg proxy with
  | none => (st, none)
  | some httpClient =>
    let st := { st with progress := wrap32 (st.progress + 1) }.log .incProgress
    (st, some (.bound proxy httpClient))

/-- Lines 109-138 of the loop body: the two gating checks, the four informational
checks, the country lookup and `Rename`. -/
def probeStep {ρ : Type} (env : Env) (nm : Names ρ) (st : State ρ) (proxy : Proxy)
    (httpClient : Client) : State ρ × Option Local :=
  let origin := proxy
  let st := st.log .CheckCloudflare
  let (cloudflare, err) := env.CheckCloudflare httpClient
  if err.isSome || !cloudflare then (st, none)
  else
    let st := st.log .CheckGoogle
    let (google, err) := env.CheckGoogle httpClient
    if err.isSome || !google then (st, none)
    else
      let st := st.log .CheckOpenai
      let (openai, _) := env.CheckOpenai httpClient
      let st := st.log .CheckYoutube
      let (youtube, _) := env.CheckYoutube httpClient
      let st := st.log .CheckNetflix
      let (netflix, _) := env.CheckNetflix httpClient
      let st := st.log .CheckDisney
      let (disney, _) := env.CheckDisney httpClient
      let st := st.log .GetIPaddrFromAPI
      let ipfromapi := env.GetIPaddrFromAPI httpClient
      let st := st.log .GetIPCountrynameFromdb
      let country := env.GetIPCountrynameFromdb ipfromapi
      let proxy :=
        if country ≠ "" then mapSet proxy "name" (.str country)
        else mapSet proxy "name" (.str "未识别")
      match nameString proxy with
      | none => (st.log .assertPanic, none)
      | some name =>
        let st := st.log .Rename
        let (renamed, registry) := nm.Rename st.registry name
        let st := { st with registry := registry }
        let proxy := mapSet proxy "name" (.str renamed)
        (st, some (.renamed origin
          { Proxy := proxy
            Cloudflare := cloudflare
            Google := google
            Openai := openai
            Youtube := youtube
            Netflix := netflix
            Disney := disney }))

/-- Lines 140-142 of the loop body: `availableCount++`. -/
def countStep {ρ : Type} (st : State ρ) : State ρ :=
  { st with availableCount := wrap32 (st.availableCount + 1) }.log .incAvailable

/-- Lines 144-153 of the loop body: the send on `resultChan`. -/
def sendStep {ρ : Type} (st : State ρ) (result : Result) : State ρ :=
  let st := st.log .send
  { st with results := st.results ++ [result] }

/-- One move of a busy worker: the new shared state, the new list of origins, and where
the worker stands afterwards (`none` when it is back at `range tasks`). -/
def advance {ρ : Type} (env : Env) (nm : Names ρ) (cfg : Config) (shared : State ρ)
    (origins : List Proxy) (w : Local) : State ρ × List Proxy × Option Local :=
  match w with
  | .taken proxy => ((bindStep env cfg shared proxy).1, origins, (bindStep env cfg shared proxy).2)
  | .bound proxy httpClient =>
    ((probeStep env nm shared proxy httpClient).1, origins,
      (probeStep env nm shared proxy httpClient).2)
  | .renamed origin result => (countStep shared, origins, some (.counted origin result))
  | .counted origin result => (sendStep shared result, origins ++ [origin], none)

/-- One step of a pool of `workers` goroutines. The enabled moves are one per busy
worker and, when a task is queued and a worker is free, the receive of the next task;
`choice` picks one of them. With no enabled move the pool stays as it is. -/
def poolStep {ρ : Type} (env : Env) (nm : Names ρ) (cfg : Config) (workers : Nat)
    (choice : Nat) (pool : Pool ρ) : Pool ρ :=
  let canTake := decide (pool.tasks ≠ []) && decide (pool.busy.length < workers)
  let enabled := pool.busy.length + (if canTake then 1 else 0)
  if enabled = 0 then pool
  else
    let i := choice % enabled
    match pool.busy.get? i with
    | some w =>
      { shared := (advance env nm cfg pool.shared pool.origins w).1
        tasks := pool.tasks
        busy := pool.busy.take i ++ (advance env nm cfg pool.shared pool.origins w).2.2.toList ++
          pool.busy.drop (i + 1)
        origins := (advance env nm cfg pool.shared pool.origins w).2.1 }
    | none =>
      match pool.tasks with
      | [] => pool
      | proxy :: rest =>
        if pool.busy.length < workers then
          { pool with tasks := rest, busy := pool.busy ++ [.taken proxy] }
        else pool

/-- The pool run for `fuel` steps, the `t`-th step taking the choice `env.pick t`. -/
def runSteps {ρ : Type} (env : Env) (nm : Names ρ) (cfg : Config) (workers : Nat)
    (fuel t : Nat) (pool : Pool ρ) : Pool ρ :=
  match fuel with
  | 0 => pool
  | fuel + 1 =>
    runSteps env nm cfg workers fuel (t + 1) (poolStep env nm cfg workers (env.pick t) pool)

/-- The worker pool of lines 94-174, from the start of the goroutines to the return of
`wg.Wait()`: all tasks are queued (the channel holds them all), no worker is busy, and
the pool steps until no move is enabled; five steps per task are enough for that. -/
def runPool {ρ : Type} (env : Env) (nm : Names ρ) (cfg : Config)
    (st : State ρ) (proxies : List Proxy) : Pool ρ :=
  runSteps env nm cfg (workersStarted (threadCount cfg proxies.length)) (5 * proxies.length) 0
    { shared := st, tasks := proxies, busy := [], origins := [] }

/-- The value of `results` that line 181 reads: every `append` of the collector but the
last has happened before `wg.Wait()` returns; the last one may not be visible yet. -/
def collected (env : Env) (sent : List Result) : List Result :=
  if env.collectorDone then sent else sent.dropLast

/-- Whether a poll of the progress printer can reach `strings.Repeat` with a negative
count (line 82): printing is on, and there is no candidate or `progress` has wrapped. -/
def printerCanPanic {ρ : Type} (cfg : Config) (proxyCount : Nat) (st : State ρ) : Bool :=
  cfg.PrintProgress &&
    (decide (proxyCount = 0) || decide (2147483648 ≤ st.trace.count Event.incProgress))

/-- The shared state `Check` sets up before the pool starts (lines 37, 42 and 64-65):
the registry reset, no result, both counters zero. -/
def initState {ρ : Type} (nm : Names ρ) (reg : ρ) : State ρ :=
  { progress := 0, availableCount := 0, registry := nm.ResetRenameCounter reg,
    results := [], trace := [] }

/-- `Check` (lines 35-182); `reg` is the registry left by earlier runs. -/
def Check {ρ : Type} (env : Env) (nm : Names ρ) (cfg : Config) (reg : ρ) : Exec (Run ρ) :=
  let st := initState nm reg
  match GetProxyFromSubs env cfg with
  | .exited code => .exited code
  | .panicked msg => .panicked msg
  | .returned (.error err) =>
    .returned { results := [], err := some ("获取节点失败: " ++ err), final := st }
  | .returned (.ok proxies) =>
    let proxies := env.DeduplicateProxies proxies
    let pool := runPool env nm cfg st proxies
    if printerCanPanic cfg proxies.length pool.shared && env.printerPanics then
      .panicked "strings: negative Repeat count"
    else
      .returned { results := collected env pool.shared.results, err := none
                  final := pool.shared }

/-! ## Observations used to state the properties -/

/-- The label the worker body hands to `Rename` for a client (lines 131-137). -/
def resolvedLabel (env : Env) (c : Client) : String :=
  if env.GetIPCountrynameFromdb (env.GetIPaddrFromAPI c) ≠ "" then
    env.GetIPCountrynameFromdb (env.GetIPaddrFromAPI c)
  else "未识别"

/-- The events of a body execution that reaches the send of line 144. -/
def passEvents : List Event :=
  [.CreateClient, .incProgress, .CheckCloudflare, .CheckGoogle, .CheckOpenai, .CheckYoutube,
   .CheckNetflix, .CheckDisney, .GetIPaddrFromAPI, .GetIPCountrynameFromdb, .Rename,
   .incAvailable, .send]

/-- The candidate binds and both gating checks return `(true, nil)`. -/
def passesGate (env : Env) (cfg : Config) (proxy : Proxy) : Bool :=
  match CreateClient env cfg proxy with
  | none => false
  | some c =>
    decide (env.CheckCloudflare c = (true, none)) && decide (env.CheckGoogle c = (true, none))

/-- The candidate binds (`CreateClient` returns a client). -/
def binds (env : Env) (cfg : Config) (proxy : Proxy) : Bool :=
  (CreateClient env cfg proxy).isSome

/-- The label of a candidate that passes the gate, `none` for a dropped candidate. -/
def baseLabel (env : Env) (cfg : Config) (proxy : Proxy) : Option String :=
  match CreateClient env cfg proxy with
  | none => none
  | some c => if passesGate env cfg proxy then some (resolvedLabel env c) else none

/-- The display name of a Result: the string under `"name"` (empty when absent). -/
def displayName (r : Result) : String := (nameString r.Proxy).getD ""

/-- The n-th name (counting from 0) of the de-collision sequence `X, X-2, X-3, ...`. -/
def suffixed (X : String) (n : Nat) : String :=
  if n = 0 then X else X ++ "-" ++ toString (n + 1)

/-- Names given to the Results of the survivors whose label is `X`, in emission order. -/
def namesWithLabel (env : Env) (cfg : Config) (X : String)
    (survivors : List Proxy) (results : List Result) : List String :=
  ((survivors.zip results).filter (fun pr => decide (baseLabel env cfg pr.1 = some X))).map
    (fun pr => displayName pr.2)

/-- Result `r` is the Result of candidate `proxy`: its flags are the booleans the six
checks returned on the candidate's client and its map agrees with the candidate off `"name"`. -/
def IsResultOf (env : Env) (cfg : Config) (proxy : Proxy) (r : Result) : Prop :=
  ∃ c, CreateClient env cfg proxy = some c ∧
    r.Cloudflare = (env.CheckCloudflare c).1 ∧ r.Google = (env.CheckGoogle c).1 ∧
    r.Openai = (env.CheckOpenai c).1 ∧ r.Youtube = (env.CheckYoutube c).1 ∧
    r.Netflix = (env.CheckNetflix c).1 ∧ r.Disney = (env.CheckDisney c).1 ∧
    ∀ k, k ≠ "name" → mapGet r.Proxy k = mapGet proxy k

/-- The Result built at lines 144-153 for a gate-passing candidate bound to client `c`
when the registry is `reg`. -/
def resultFor {ρ : Type} (env : Env) (nm : Names ρ) (reg : ρ) (c : Client)
    (proxy : Proxy) : Result :=
  { Proxy := mapSet (mapSet proxy "name" (.str (resolvedLabel env c))) "name"
               (.str (nm.Rename reg (resolvedLabel env c)).1)
    Cloudflare := true
    Google := true
    Openai := (env.CheckOpenai c).1
    Youtube := (env.CheckYoutube c).1
    Netflix := (env.CheckNetflix c).1
    Disney := (env.CheckDisney c).1 }

/-- The Results a worker loop over `tasks` appends, starting from registry `reg`. -/
def emittedFrom {ρ : Type} (env : Env) (nm : Names ρ) (cfg : Config) (reg : ρ)
    (tasks : List Proxy) : List Result :=
  match tasks with
  | [] => []
  | p :: rest =>
    match CreateClient env cfg p with
    | none => emittedFrom env nm cfg reg rest
    | some c =>
      if passesGate env cfg p then
        resultFor env nm reg c p ::
          emittedFrom env nm cfg (nm.Rename reg (resolvedLabel env c)).2 rest
      else emittedFrom env nm cfg reg rest

/-! ## Observations on the pool -/

/-- The events of the part of a body execution that goes from the first gating check
to `Rename` (lines 109-138). -/
def probeEvents : List Event :=
  [.CheckCloudflare, .CheckGoogle, .CheckOpenai, .CheckYoutube, .CheckNetflix, .CheckDisney,
   .GetIPaddrFromAPI, .GetIPCountrynameFromdb, .Rename]

/-- The moves of a busy worker, as `advance` makes them: from shared state, origins and
local state to the new shared state, origins and local state. -/
inductive Move {ρ : Type} (env : Env) (nm : Names ρ) (cfg : Config) :
    State ρ → List Proxy → Local → State ρ → List Proxy → Option Local → Prop where
  | unbound (st : State ρ) (os : List Proxy) (p : Proxy)
      (h : CreateClient env cfg p = none) :
      Move env nm cfg st os (.taken p)
        { st with trace := st.trace ++ [.CreateClient] } os none
  | bind (st : State ρ) (os : List Proxy) (p : Proxy) (c : Client)
      (h : CreateClient env cfg p = some c) :
      Move env nm cfg st os (.taken p)
        { st with progress := wrap32 (st.progress + 1)
                  trace := st.trace ++ [.CreateClient, .incProgress] } os (some (.bound p c))
  | gateFail (st : State ρ) (os : List Proxy) (p : Proxy) (c : Client) (evs : List Event)
      (h : ¬ (env.CheckCloudflare c = (true, none) ∧ env.CheckGoogle c = (true, none)))
      (hevs : evs = [.CheckCloudflare] ∨ evs = [.CheckCloudflare, .CheckGoogle]) :
      Move env nm cfg st os (.bound p c) { st with trace := st.trace ++ evs } os none
  | rename (st : State ρ) (os : List Proxy) (p : Proxy) (c : Client)
      (hcf : env.CheckCloudflare c = (true, none)) (hg : env.CheckGoogle c = (true, none)) :
      Move env nm cfg st os (.bound p c)
        { st with registry := (nm.Rename st.registry (resolvedLabel env c)).2
                  trace := st.trace ++ probeEvents } os
        (some (.renamed p (resultFor env nm st.registry c p)))
  | count (st : State ρ) (os : List Proxy) (o : Proxy) (r : Result) :
      Move env nm cfg st os (.renamed o r)
        { st with availableCount := wrap32 (st.availableCount + 1)
                  trace := st.trace ++ [.incAvailable] } os (some (.counted o r))
  | send (st : State ρ) (os : List Proxy) (o : Proxy) (r : Result) :
      Move env nm cfg st os (.counted o r)
        { st with results := st.results ++ [r], trace := st.trace ++ [.send] } (os ++ [o]) none

/-- Steps a busy worker still has to make before it is back at `range tasks`, at most. -/
def Local.weight : Local → Nat
  | .taken _ => 4
  | .bound _ _ => 3
  | .renamed _ _ => 2
  | .counted _ _ => 1

/-- Steps the pool still has to make, at most: five per queued task and the weights of
the busy workers. -/
def Pool.measure {ρ : Type} (pool : Pool ρ) : Nat :=
  5 * pool.tasks.length + (pool.busy.map Local.weight).sum

/-- What is known of a busy worker: a bound worker holds the client of its candidate; a
worker past `Rename` holds the Result of a candidate that passed the gate. -/
def Local.Valid (env : Env) (cfg : Config) : Local → Prop
  | .taken _ => True
  | .bound p c => CreateClient env cfg p = some c
  | .renamed o r => passesGate env cfg o = true ∧ IsResultOf env cfg o r
  | .counted o r => passesGate env cfg o = true ∧ IsResultOf env cfg o r

/-- The worker has received its candidate and not yet called `CreateClient`. -/
def Local.isTaken : Local → Bool
  | .taken _ => true
  | _ => false

/-- The worker has not yet incremented `progress` and will: its candidate binds. -/
def Local.willBind (env : Env) (cfg : Config) : Local → Bool
  | .taken p => binds env cfg p
  | _ => false

/-- The worker has incremented `availableCount` and not yet sent. -/
def Local.isCounted : Local → Bool
  | .counted _ _ => true
  | _ => false

/-- The candidate of a busy worker that will still send a Result. -/
def Local.pendingOrigin (env : Env) (cfg : Config) : Local → Option Proxy
  | .taken p => if passesGate env cfg p then some p else none
  | .bound p _ => if passesGate env cfg p then some p else none
  | .renamed o _ => some o
  | .counted o _ => some o

/-- The name held by a busy worker past `Rename` whose candidate resolved to `X`. -/
def Local.heldName (env : Env) (cfg : Config) (X : String) : Local → Option String
  | .renamed o r => if baseLabel env cfg o = some X then some (displayName r) else none
  | .counted o r => if baseLabel env cfg o = some X then some (displayName r) else none
  | _ => none

/-- Number of occurrences of `q` in `l`. -/
def occ {α : Type} [DecidableEq α] (q : α) (l : List α) : Nat :=
  l.countP fun x => decide (x = q)

/-- The facts that hold of a pool started on the tasks `original` from the state `Check`
sets up, with `done` the tasks received so far. -/
def PoolInv {ρ : Type} (env : Env) (cfg : Config) (original done : List Proxy)
    (pool : Pool ρ) : Prop :=
  original = done ++ pool.tasks ∧
  (∀ w ∈ pool.busy, w.Valid env cfg) ∧
  pool.shared.trace.count Event.CreateClient + pool.busy.countP Local.isTaken = done.length ∧
  pool.shared.trace.count Event.incProgress + pool.busy.countP (Local.willBind env cfg) =
    done.countP (binds env cfg) ∧
  pool.shared.trace.count Event.incAvailable =
    pool.origins.length + pool.busy.countP Local.isCounted ∧
  pool.origins.length = pool.shared.results.length ∧
  pool.shared.progress =
    (fun x => wrap32 (x + 1))^[pool.shared.trace.count Event.incProgress] 0 ∧
  pool.shared.availableCount =
    (fun x => wrap32 (x + 1))^[pool.shared.trace.count Event.incAvailable] 0 ∧
  (∀ q, occ q pool.origins + occ q (pool.busy.filterMap (Local.pendingOrigin env cfg)) =
    occ q (done.filter (passesGate env cfg))) ∧
  List.Forall₂ (IsResultOf env cfg) pool.origins pool.shared.results

/-- The facts that hold of the registry of the spec and of the names given out for the
label `X`: the registry holds the number of `Rename` calls made for `X`, and the names
of the Results sent or held for `X` are the first so many of `X, X-2, X-3, ...`. -/
def NamesInv (env : Env) (cfg : Config) (X : String) (pool : Pool Registry) : Prop :=
  ∃ n, mapGet pool.shared.registry X = (if n = 0 then none else some n) ∧
    ∀ a, occ a (namesWithLabel env cfg X pool.origins pool.shared.results) +
        occ a (pool.busy.filterMap (Local.heldName env cfg X)) =
      occ a ((List.range n).map (suffixed X))

/-- The number a list of decimal digit characters denotes, continuing from `acc`. -/
def digitsValue (acc : Nat) (ds : List Char) : Nat :=
  ds.foldl (fun a ch => 10 * a + (ch.toNat - 48)) acc

/-! ## Sample inputs -/

/-- A configuration with two workers and one subscription. -/
def sampleCfg : Config :=
  { Concurrent := 2, Timeout := 5000, PrintProgress := false, SubUrls := ["sub"] }

/-- A candidate with a name, a server and a port. -/
def sampleProxy : Proxy :=
  [("name", .str "node-1"), ("type", .str "ss"), ("server", .str "h1.example"),
   ("port", .int 443)]

/-- A second candidate, without a name. -/
def sampleProxy2 : Proxy :=
  [("type", .str "trojan"), ("server", .str "h2.example"), ("port", .int 8443)]

/-- A candidate the adapter parser rejects (no server). -/
def brokenProxy : Proxy := [("name", .str "broken")]

/-- The client `CreateClient` builds under `sampleCfg`. -/
def sampleClient : Client :=
  { Timeout := 5000000000, proxy := ⟨0⟩, IdleConnTimeout := 5000000000,
    DisableKeepAlives := true }

/-- An environment in which every candidate with a server binds, both gating checks
pass, the OpenAI probe returns `true` together with an error, and the country is "US". -/
def sampleEnv : Env :=
  { fetch := fun _ => .document (.list [some sampleProxy, none, some sampleProxy2])
    ParseProxy := fun p => if mapGet p "server" = none then .error "missing server" else .ok ⟨0⟩
    CheckCloudflare := fun _ => (true, none)
    CheckGoogle := fun _ => (true, none)
    CheckOpenai := fun _ => (true, some "unexpected status")
    CheckYoutube := fun _ => (false, some "timeout")
    CheckNetflix := fun _ => (true, none)
    CheckDisney := fun _ => (false, none)
    GetIPaddrFromAPI := fun _ => "203.0.113.7"
    GetIPCountrynameFromdb := fun _ => "US"
    DeduplicateProxies := DeduplicateProxies
    pick := fun _ => 0
    collectorDone := true
    printerPanics := false }

/-- As `sampleEnv`, with a subscription whose only entry has no identity fields. -/
def unusableEnv : Env :=
  { sampleEnv with fetch := fun _ => .document (.list [some brokenProxy]) }

/-- The list of 2^31 distinct candidates `h0, h1, ...`. -/
def manyProxies : List Proxy :=
  (List.range 2147483648).map fun i =>
    [("type", .str "ss"), ("server", .str ("h" ++ toString i)), ("port", .int 443)]

/-- As `sampleCfg`, with concurrency zero. -/
def zeroCfg : Config := { sampleCfg with Concurrent := 0 }

/-- As `sampleCfg`, with a negative concurrency. -/
def negativeCfg : Config := { sampleCfg with Concurrent := -1 }

/-- As `sampleEnv`, with the first gating check failing. -/
def cloudflareDownEnv : Env :=
  { sampleEnv with CheckCloudflare := fun _ => (false, some "connection refused") }

/-- As `sampleEnv`, with one subscription that lists the 2^31 candidates of `manyProxies`. -/
def manyEnv : Env :=
  { sampleEnv with fetch := fun _ => .document (.list (manyProxies.map some)) }

/-- As `manyEnv`, with the first gating check failing. -/
def manyDownEnv : Env :=
  { manyEnv with CheckCloudflare := fun _ => (false, some "connection refused") }

/-- As `sampleEnv`, with a scheduler that lets the second worker rename after the first
and send before it. -/
def overtakingEnv : Env :=
  { sampleEnv with pick := fun t => if t = 1 ∨ (4 ≤ t ∧ t ≤ 7) then 1 else 0 }

/-- As `sampleEnv`, with the collector's last `append` not yet visible at the return. -/
def lateCollectorEnv : Env :=
  { sampleEnv with collectorDone := false }

/-- As `sampleEnv`, with the country lookup returning the empty string. -/
def unknownCountryEnv : Env :=
  { sampleEnv with GetIPCountrynameFromdb := fun _ => "" }

/-- The Result of `sampleProxy` under `sampleEnv` with a fresh registry. -/
def sampleResult : Result :=
  { Proxy := [("name", .str "US"), ("type", .str "ss"), ("server", .str "h1.example"),
              ("port", .int 443)]
    Openai := true, Youtube := false, Netflix := true, Google := true
    Cloudflare := true, Disney := false }

/-- A fresh state of the spec's registry. -/
def sampleState : State Registry := initState proxyutils []

/-! # Properties -/

/-! ## Maps -/

theorem mapGet_mapSet_self {β : Type} (m : List (String × β)) (k : String) (v : β) :
    mapGet (mapSet m k v) k = some v := by
  induction m with
  | nil => simp [mapSet, mapGet]
  | cons kv rest ih =>
    obtain ⟨k', v'⟩ := kv
    by_cases h : k' = k
    · simp [mapSet, mapGet, h]
    · simp [mapSet, mapGet, h, ih]

theorem mapGet_mapSet_other {β : Type} (m : List (String × β)) (k k' : String) (v : β)
    (h : k' ≠ k) : mapGet (mapSet m k v) k' = mapGet m k' := by
  induction m with
  | nil => simp [mapSet, mapGet, Ne.symm h]
  | cons kv rest ih =>
    obtain ⟨k₁, v₁⟩ := kv
    by_cases h₁ : k₁ = k
    · subst h₁
      simp [mapSet, mapGet, Ne.symm h]
    · by_cases h₂ : k₁ = k'
      · subst h₂
        simp [mapSet, mapGet, h₁]
      · simp [mapSet, mapGet, h₁, h₂, ih]

theorem nameString_mapSet (m : Proxy) (s : String) :
    nameString (mapSet m "name" (.str s)) = some s := by
  simp [nameString, mapGet_mapSet_self]

/-! ## The four ways through the worker body -/

section Body

variable {ρ : Type} (env : Env) (nm : Names ρ) (cfg : Config)

theorem gate_fail_iff (r : Bool × Option String) :
    (r.2.isSome || !r.1) = true ↔ r ≠ (true, none) := by
  obtain ⟨b, e⟩ := r
  cases b <;> cases e <;> simp

theorem workerBody_unbound (st : State ρ) (proxy : Proxy)
    (h : CreateClient env cfg proxy = none) :
    workerBody env nm cfg st proxy = { st with trace := st.trace ++ [.CreateClient] } := by
  simp [workerBody, h, State.log]

theorem workerBody_cloudflare_fail (st : State ρ) (proxy : Proxy) (c : Client)
    (h : CreateClient env cfg proxy = some c) (hcf : env.CheckCloudflare c ≠ (true, none)) :
    workerBody env nm cfg st proxy =
      { st with progress := wrap32 (st.progress + 1)
                trace := st.trace ++ [.CreateClient, .incProgress, .CheckCloudflare] } := by
  have hf := (gate_fail_iff _).2 hcf
  simp only [workerBody, h, State.log]
  rw [if_pos hf]
  simp

theorem workerBody_google_fail (st : State ρ) (proxy : Proxy) (c : Client)
    (h : CreateClient env cfg proxy = some c) (hcf : env.CheckCloudflare c = (true, none))
    (hg : env.CheckGoogle c ≠ (true, none)) :
    workerBody env nm cfg st proxy =
      { st with progress := wrap32 (st.progress + 1)
                trace := st.trace ++
                  [.CreateClient, .incProgress, .CheckCloudflare, .CheckGoogle] } := by
  have hf := (gate_fail_iff _).2 hg
  simp only [workerBody, h, State.log, hcf]
  simp only [Option.isSome_none, Bool.not_true, Bool.or_self, Bool.false_eq_true, if_false]
  rw [if_pos hf]
  simp

theorem workerBody_pass (st : State ρ) (proxy : Proxy) (c : Client)
    (h : CreateClient env cfg proxy = some c) (hcf : env.CheckCloudflare c = (true, none))
    (hg : env.CheckGoogle c = (true, none)) :
    workerBody env nm cfg st proxy =
      { progress := wrap32 (st.progress + 1)
        availableCount := wrap32 (st.availableCount + 1)
        registry := (nm.Rename st.registry (resolvedLabel env c)).2
        results := st.results ++
          [{ Proxy := mapSet (mapSet proxy "name" (.str (resolvedLabel env c))) "name"
                        (.str (nm.Rename st.registry (resolvedLabel env c)).1)
             Cloudflare := true
             Google := true
             Openai := (env.CheckOpenai c).1
             Youtube := (env.CheckYoutube c).1
             Netflix := (env.CheckNetflix c).1
             Disney := (env.CheckDisney c).1 }]
        trace := st.trace ++ passEvents } := by
  simp only [workerBody, h, State.log, hcf, hg]
  simp only [Option.isSome_none, Bool.not_true, Bool.or_self, Bool.false_eq_true, if_false]
  by_cases hc : env.GetIPCountrynameFromdb (env.GetIPaddrFromAPI c) = ""
  · simp [resolvedLabel, hc, nameString_mapSet, passEvents]
  · simp [resolvedLabel, hc, nameString_mapSet, passEvents]

end Body

/-! ## Per-candidate properties -/

/-- Whether the body emitted a Result is decided by the two gating checks alone. -/
theorem emits_iff {ρ : Type} (env : Env) (nm : Names ρ) (cfg : Config) (st : State ρ)
    (proxy : Proxy) (c : Client) (h : CreateClient env cfg proxy = some c) :
    ((workerBody env nm cfg st proxy).results.length = st.results.length + 1 ↔
      (env.CheckCloudflare c = (true, none) ∧ env.CheckGoogle c = (true, none))) ∧
    (¬ (env.CheckCloudflare c = (true, none) ∧ env.CheckGoogle c = (true, none)) →
      (workerBody env nm cfg st proxy).results = st.results) := by
  by_cases hcf : env.CheckCloudflare c = (true, none)
  · by_cases hg : env.CheckGoogle c = (true, none)
    · rw [workerBody_pass env nm cfg st proxy c h hcf hg]
      simp [hcf, hg]
    · rw [workerBody_google_fail env nm cfg st proxy c h hcf hg]
      simp [hg]
  · rw [workerBody_cloudflare_fail env nm cfg st proxy c h hcf]
    simp [hcf]

/-- C1. For a candidate whose client was built, the worker body emits a Result if and
only if `CheckCloudflare` and `CheckGoogle` both returned `(true, nil)`; otherwise the
result list is unchanged. Changing the informational checks (any environment that agrees
on the parser and the two gating checks) never changes whether a Result is emitted, and
when the first gating check fails `CheckGoogle` is not called. -/
theorem C1_gating_invariant {ρ : Type} (env : Env) (nm : Names ρ) (cfg : Config)
    (st : State ρ) (proxy : Proxy) (c : Client) (h : CreateClient env cfg proxy = some c) :
    ((∃ r, (workerBody env nm cfg st proxy).results = st.results ++ [r]) ↔
      (env.CheckCloudflare c = (true, none) ∧ env.CheckGoogle c = (true, none))) ∧
    (¬ (env.CheckCloudflare c = (true, none) ∧ env.CheckGoogle c = (true, none)) →
      (workerBody env nm cfg st proxy).results = st.results) ∧
    (∀ env2 : Env, env2.ParseProxy = env.ParseProxy →
      env2.CheckCloudflare = env.CheckCloudflare → env2.CheckGoogle = env.CheckGoogle →
      ((workerBody env2 nm cfg st proxy).results.length = st.results.length + 1 ↔
        (workerBody env nm cfg st proxy).results.length = st.results.length + 1)) ∧
    (env.CheckCloudflare c ≠ (true, none) →
      ∃ evs, (workerBody env nm cfg st proxy).trace = st.trace ++ evs ∧
        Event.CheckGoogle ∉ evs) := by
  refine ⟨?_, (emits_iff env nm cfg st proxy c h).2, ?_, ?_⟩
  · constructor
    · rintro ⟨r, hr⟩
      exact (emits_iff env nm cfg st proxy c h).1.1 (by simp [hr])
    · rintro ⟨hcf, hg⟩
      rw [workerBody_pass env nm cfg st proxy c h hcf hg]
      exact ⟨_, rfl⟩
  · intro env2 hp hcf hg
    have h2 : CreateClient env2 cfg proxy = some c := by
      simpa [CreateClient, hp] using h
    rw [(emits_iff env2 nm cfg st proxy c h2).1, (emits_iff env nm cfg st proxy c h).1,
      hcf, hg]
  · intro hcf
    rw [workerBody_cloudflare_fail env nm cfg st proxy c h hcf]
    exact ⟨_, rfl, by decide⟩

/-- C1 at a candidate whose first gating check fails. -/
theorem C1_gating_invariant_witness :
    CreateClient cloudflareDownEnv sampleCfg sampleProxy = some sampleClient ∧
    (workerBody cloudflareDownEnv proxyutils sampleCfg sampleState sampleProxy).results =
      sampleState.results :=
  ⟨by decide,
   (C1_gating_invariant cloudflareDownEnv proxyutils sampleCfg sampleState sampleProxy
      sampleClient (by decide)).2.1 (by decide)⟩

/-- The Result of a passing candidate, whatever the state it is processed in. -/
theorem results_of_pass {ρ : Type} (env : Env) (nm : Names ρ) (cfg : Config) (st : State ρ)
    (proxy : Proxy) (c : Client) (h : CreateClient env cfg proxy = some c)
    (hcf : env.CheckCloudflare c = (true, none)) (hg : env.CheckGoogle c = (true, none)) :
    (workerBody env nm cfg st proxy).results = st.results ++
      [{ Proxy := mapSet (mapSet proxy "name" (.str (resolvedLabel env c))) "name"
                    (.str (nm.Rename st.registry (resolvedLabel env c)).1)
         Cloudflare := true
         Google := true
         Openai := (env.CheckOpenai c).1
         Youtube := (env.CheckYoutube c).1
         Netflix := (env.CheckNetflix c).1
         Disney := (env.CheckDisney c).1 }] := by
  rw [workerBody_pass env nm cfg st proxy c h hcf hg]

/-- A body execution that appends a Result is one of a bound, gate-passing candidate. -/
theorem pass_of_emitted {ρ : Type} (env : Env) (nm : Names ρ) (cfg : Config) (st : State ρ)
    (proxy : Proxy) (r : Result)
    (hr : (workerBody env nm cfg st proxy).results = st.results ++ [r]) :
    ∃ c, CreateClient env cfg proxy = some c ∧ env.CheckCloudflare c = (true, none) ∧
      env.CheckGoogle c = (true, none) := by
  cases h : CreateClient env cfg proxy with
  | none =>
    rw [workerBody_unbound env nm cfg st proxy h] at hr
    simp at hr
  | some c =>
    have hlen : (workerBody env nm cfg st proxy).results.length = st.results.length + 1 := by
      simp [hr]
    exact ⟨c, rfl, (emits_iff env nm cfg st proxy c h).1.1 hlen⟩

/-- C2 (as the code has it). For a candidate that passed both gating checks the worker
emits a Result, and each informational flag (OpenAI, YouTube, Netflix, Disney) of that
Result is the boolean its own check returned, whatever error accompanies it: an error is
ignored, not turned into `false`. The two gating flags are `true`. -/
theorem C2_informational_flags {ρ : Type} (env : Env) (nm : Names ρ) (cfg : Config)
    (st : State ρ) (proxy : Proxy) (c : Client) (h : CreateClient env cfg proxy = some c)
    (hcf : env.CheckCloudflare c = (true, none)) (hg : env.CheckGoogle c = (true, none)) :
    ∃ r, (workerBody env nm cfg st proxy).results = st.results ++ [r] ∧
      r.Openai = (env.CheckOpenai c).1 ∧ r.Youtube = (env.CheckYoutube c).1 ∧
      r.Netflix = (env.CheckNetflix c).1 ∧ r.Disney = (env.CheckDisney c).1 ∧
      r.Cloudflare = true ∧ r.Google = true :=
  ⟨_, results_of_pass env nm cfg st proxy c h hcf hg, rfl, rfl, rfl, rfl, rfl, rfl⟩

/-- C2 at the sample candidate: the Result is emitted with the booleans of the checks. -/
theorem C2_informational_flags_witness :
    CreateClient sampleEnv sampleCfg sampleProxy = some sampleClient ∧
    ∃ r, (workerBody sampleEnv proxyutils sampleCfg sampleState sampleProxy).results =
        sampleState.results ++ [r] ∧
      r.Openai = (sampleEnv.CheckOpenai sampleClient).1 ∧
      r.Youtube = (sampleEnv.CheckYoutube sampleClient).1 ∧
      r.Netflix = (sampleEnv.CheckNetflix sampleClient).1 ∧
      r.Disney = (sampleEnv.CheckDisney sampleClient).1 ∧
      r.Cloudflare = true ∧ r.Google = true :=
  ⟨by decide,
   C2_informational_flags sampleEnv proxyutils sampleCfg sampleState sampleProxy sampleClient
     (by decide) (by decide) (by decide)⟩

/-- C2 as stated fails: the OpenAI check returns `true` together with an error for a
candidate that passed both gating checks, and the emitted Result has `Openai = true`. -/
theorem C2_error_not_downgraded :
    passesGate sampleEnv sampleCfg sampleProxy = true ∧
    sampleEnv.CheckOpenai sampleClient = (true, some "unexpected status") ∧
    (workerBody sampleEnv proxyutils sampleCfg sampleState sampleProxy).results.map
      Result.Openai = [true] := by
  decide

/-- C6. When the worker body emits a Result for a candidate, the Result's map has exactly
the candidate's keys plus `"name"`, and every key other than `"name"` maps to the value it
had in the candidate. -/
theorem C6_fields_pass_through {ρ : Type} (env : Env) (nm : Names ρ) (cfg : Config)
    (st : State ρ) (proxy : Proxy) (r : Result)
    (hr : (workerBody env nm cfg st proxy).results = st.results ++ [r]) :
    ∀ k : String,
      ((mapGet r.Proxy k).isSome = true ↔ ((mapGet proxy k).isSome = true ∨ k = "name")) ∧
      (k ≠ "name" → mapGet r.Proxy k = mapGet proxy k) := by
  obtain ⟨c, h, hcf, hg⟩ := pass_of_emitted env nm cfg st proxy r hr
  rw [results_of_pass env nm cfg st proxy c h hcf hg] at hr
  have hr2 := List.append_cancel_left hr
  simp only [List.cons.injEq, and_true] at hr2
  subst hr2
  intro k
  by_cases hk : k = "name"
  · subst hk
    simp [mapGet_mapSet_self]
  · simp [mapGet_mapSet_other _ _ _ _ hk, hk]

/-- C6 at the sample candidate: the server field is carried over unchanged. -/
theorem C6_fields_pass_through_witness :
    (workerBody sampleEnv proxyutils sampleCfg sampleState sampleProxy).results =
        sampleState.results ++ [sampleResult] ∧
    mapGet sampleResult.Proxy "server" = mapGet sampleProxy "server" :=
  ⟨by decide,
   ((C6_fields_pass_through sampleEnv proxyutils sampleCfg sampleState sampleProxy
      sampleResult (by decide)) "server").2 (by decide)⟩

/-- C9 (as the code has it). For a gating-passed candidate the label handed to `Rename`
is the country returned by the geo lookup when that is non-empty and the fixed label
"未识别" when it is empty; `Rename` is called once, its new registry is kept, and the
`"name"` of the emitted Result is the string `Rename` returned, whatever the candidate's
own name was. -/
theorem C9_sentinel_label {ρ : Type} (env : Env) (nm : Names ρ) (cfg : Config)
    (st : State ρ) (proxy : Proxy) (c : Client) (h : CreateClient env cfg proxy = some c)
    (hcf : env.CheckCloudflare c = (true, none)) (hg : env.CheckGoogle c = (true, none)) :
    (env.GetIPCountrynameFromdb (env.GetIPaddrFromAPI c) ≠ "" →
      (workerBody env nm cfg st proxy).registry =
        (nm.Rename st.registry (env.GetIPCountrynameFromdb (env.GetIPaddrFromAPI c))).2 ∧
      ∃ r, (workerBody env nm cfg st proxy).results = st.results ++ [r] ∧
        mapGet r.Proxy "name" = some (.str
          (nm.Rename st.registry (env.GetIPCountrynameFromdb (env.GetIPaddrFromAPI c))).1)) ∧
    (env.GetIPCountrynameFromdb (env.GetIPaddrFromAPI c) = "" →
      (workerBody env nm cfg st proxy).registry = (nm.Rename st.registry "未识别").2 ∧
      ∃ r, (workerBody env nm cfg st proxy).results = st.results ++ [r] ∧
        mapGet r.Proxy "name" = some (.str (nm.Rename st.registry "未识别").1)) ∧
    ∃ evs, (workerBody env nm cfg st proxy).trace = st.trace ++ evs ∧
      evs.count Event.Rename = 1 := by
  rw [workerBody_pass env nm cfg st proxy c h hcf hg]
  refine ⟨?_, ?_, passEvents, rfl, by decide⟩
  · intro hc
    have hl : resolvedLabel env c = env.GetIPCountrynameFromdb (env.GetIPaddrFromAPI c) := by
      simp [resolvedLabel, hc]
    rw [hl]
    exact ⟨rfl, _, rfl, mapGet_mapSet_self _ _ _⟩
  · intro hc
    have hl : resolvedLabel env c = "未识别" := by
      simp [resolvedLabel, hc]
    rw [hl]
    exact ⟨rfl, _, rfl, mapGet_mapSet_self _ _ _⟩

/-- C9 at a candidate whose country lookup is empty: the name is what `Rename` returns
for "未识别". -/
theorem C9_sentinel_label_witness :
    CreateClient unknownCountryEnv sampleCfg sampleProxy = some sampleClient ∧
    ∃ r, (workerBody unknownCountryEnv proxyutils sampleCfg sampleState sampleProxy).results =
        sampleState.results ++ [r] ∧
      mapGet r.Proxy "name" =
        some (.str (proxyutils.Rename sampleState.registry "未识别").1) :=
  ⟨by decide,
   ((C9_sentinel_label unknownCountryEnv proxyutils sampleCfg sampleState sampleProxy
      sampleClient (by decide) (by decide) (by decide)).2.1 (by decide)).2⟩

/-- C9 as stated fails: with an empty country the label handed to `Rename` (the one the
registry records) and the final name are "未识别", not "unrecognized". -/
theorem C9_sentinel_is_not_unrecognized :
    unknownCountryEnv.GetIPCountrynameFromdb
      (unknownCountryEnv.GetIPaddrFromAPI sampleClient) = "" ∧
    passesGate unknownCountryEnv sampleCfg sampleProxy = true ∧
    (workerBody unknownCountryEnv proxyutils sampleCfg sampleState sampleProxy).registry =
      [("未识别", 1)] ∧
    (workerBody unknownCountryEnv proxyutils sampleCfg sampleState sampleProxy).results.map
      displayName = ["未识别"] ∧
    (workerBody unknownCountryEnv proxyutils sampleCfg sampleState sampleProxy).results.map
      displayName ≠ [(Rename [] "unrecognized").1] := by
  decide

/-! ## The worker count -/

/-- C8 (as the code has it). The number of worker goroutines `Check` starts is
`min c n` when that is positive and zero otherwise, for every configured concurrency `c`
and candidate count `n`; it never exceeds the candidate count, and it never exceeds the
configured limit when that limit is not negative. -/
theorem C8_worker_count (cfg : Config) (proxies : List Proxy) :
    ((workersStarted (threadCount cfg proxies.length) : Int) =
      if 0 < min cfg.Concurrent (proxies.length : Int)
      then min cfg.Concurrent (proxies.length : Int) else 0) ∧
    workersStarted (threadCount cfg proxies.length) ≤ proxies.length ∧
    (0 ≤ cfg.Concurrent →
      (workersStarted (threadCount cfg proxies.length) : Int) ≤ cfg.Concurrent) := by
  unfold workersStarted threadCount
  refine ⟨?_, ?_, ?_⟩
  · split <;> split <;> omega
  · split <;> omega
  · intro h
    split <;> omega

/-- C8 with two configured workers and one candidate: one worker. -/
theorem C8_worker_count_witness :
    (0 : Int) ≤ sampleCfg.Concurrent ∧
    (workersStarted (threadCount sampleCfg [sampleProxy].length) : Int) ≤
      sampleCfg.Concurrent :=
  ⟨by decide, (C8_worker_count sampleCfg [sampleProxy]).2.2 (by decide)⟩

/-- C8 as stated fails for a negative limit: with concurrency -1 and one candidate no
worker is started, and zero exceeds the configured limit. -/
theorem C8_negative_limit_exceeded :
    negativeCfg.Concurrent = -1 ∧
    workersStarted (threadCount negativeCfg [sampleProxy].length) = 0 ∧
    ¬ ((workersStarted (threadCount negativeCfg [sampleProxy].length) : Int) ≤
      negativeCfg.Concurrent) := by
  decide

/-! ## The worker loop -/

theorem wrap32_of_range (x : Int) (h₁ : -2147483648 ≤ x) (h₂ : x < 2147483648) :
    wrap32 x = x := by
  unfold wrap32
  omega

section Loop

variable {ρ : Type} (env : Env) (nm : Names ρ) (cfg : Config)

theorem passesGate_of_bound (proxy : Proxy) (c : Client)
    (h : CreateClient env cfg proxy = some c) :
    passesGate env cfg proxy = true ↔
      (env.CheckCloudflare c = (true, none) ∧ env.CheckGoogle c = (true, none)) := by
  simp [passesGate, h]

theorem passesGate_imp_binds (proxy : Proxy) (h : passesGate env cfg proxy = true) :
    binds env cfg proxy = true := by
  unfold passesGate at h
  unfold binds
  cases hc : CreateClient env cfg proxy with
  | none => simp [hc] at h
  | some c => rfl

/-- The three outcomes of one body execution. -/
theorem body_cases (st : State ρ) (proxy : Proxy) :
    (binds env cfg proxy = false ∧ passesGate env cfg proxy = false ∧
      workerBody env nm cfg st proxy = { st with trace := st.trace ++ [.CreateClient] }) ∨
    (binds env cfg proxy = true ∧ passesGate env cfg proxy = false ∧
      ∃ evs, workerBody env nm cfg st proxy =
          { st with progress := wrap32 (st.progress + 1), trace := st.trace ++ evs } ∧
        (evs = [.CreateClient, .incProgress, .CheckCloudflare] ∨
         evs = [.CreateClient, .incProgress, .CheckCloudflare, .CheckGoogle])) ∨
    (binds env cfg proxy = true ∧ passesGate env cfg proxy = true ∧
      ∃ c, CreateClient env cfg proxy = some c ∧
        workerBody env nm cfg st proxy =
          { progress := wrap32 (st.progress + 1)
            availableCount := wrap32 (st.availableCount + 1)
            registry := (nm.Rename st.registry (resolvedLabel env c)).2
            results := st.results ++ [resultFor env nm st.registry c proxy]
            trace := st.trace ++ passEvents }) := by
  cases h : CreateClient env cfg proxy with
  | none =>
    left
    exact ⟨by simp [binds, h], by simp [passesGate, h], workerBody_unbound env nm cfg st proxy h⟩
  | some c =>
    right
    have hb : binds env cfg proxy = true := by simp [binds, h]
    by_cases hcf : env.CheckCloudflare c = (true, none)
    · by_cases hg : env.CheckGoogle c = (true, none)
      · right
        exact ⟨hb, (passesGate_of_bound env cfg proxy c h).2 ⟨hcf, hg⟩, c, rfl,
          workerBody_pass env nm cfg st proxy c h hcf hg⟩
      · left
        refine ⟨hb, ?_, _, workerBody_google_fail env nm cfg st proxy c h hcf hg, Or.inr rfl⟩
        simp [passesGate, h, hg]
    · left
      refine ⟨hb, ?_, _, workerBody_cloudflare_fail env nm cfg st proxy c h hcf, Or.inl rfl⟩
      simp [passesGate, h, hcf]

theorem step_progress (st : State ρ) (proxy : Proxy) :
    (workerBody env nm cfg st proxy).progress =
      if binds env cfg proxy then wrap32 (st.progress + 1) else st.progress := by
  rcases body_cases env nm cfg st proxy with ⟨hb, _, h⟩ | ⟨hb, _, _, h, _⟩ | ⟨hb, _, _, _, h⟩ <;>
    simp [h, hb]

theorem step_available (st : State ρ) (proxy : Proxy) :
    (workerBody env nm cfg st proxy).availableCount =
      if passesGate env cfg proxy then wrap32 (st.availableCount + 1)
      else st.availableCount := by
  rcases body_cases env nm cfg st proxy with ⟨_, hp, h⟩ | ⟨_, hp, _, h, _⟩ | ⟨_, hp, _, _, h⟩ <;>
    simp [h, hp]

theorem step_results (st : State ρ) (proxy : Proxy) :
    (workerBody env nm cfg st proxy).results =
      st.results ++ emittedFrom env nm cfg st.registry [proxy] ∧
    (workerBody env nm cfg st proxy).registry =
      match CreateClient env cfg proxy with
      | none => st.registry
      | some c =>
        if passesGate env cfg proxy then (nm.Rename st.registry (resolvedLabel env c)).2
        else st.registry := by
  rcases body_cases env nm cfg st proxy with ⟨hb, hp, h⟩ | ⟨hb, hp, _, h, _⟩ | ⟨hb, hp, c, hc, h⟩
  · have hn : CreateClient env cfg proxy = none := by
      simpa [binds] using hb
    simp [h, emittedFrom, hn]
  · cases hc : CreateClient env cfg proxy with
    | none => simp [binds, hc] at hb
    | some c => simp [h, emittedFrom, hc, hp]
  · simp [h, emittedFrom, hc, hp]

theorem step_trace (st : State ρ) (proxy : Proxy) :
    (workerBody env nm cfg st proxy).trace.count Event.CreateClient =
      st.trace.count Event.CreateClient + 1 := by
  rcases body_cases env nm cfg st proxy with
    ⟨_, _, h⟩ | ⟨_, _, _, h, rfl | rfl⟩ | ⟨_, _, _, _, h⟩ <;>
    simp [h, List.count_append, passEvents]

theorem emittedFrom_cons (reg : ρ) (p : Proxy) (rest : List Proxy) :
    emittedFrom env nm cfg reg (p :: rest) =
      emittedFrom env nm cfg reg [p] ++
        emittedFrom env nm cfg
          (match CreateClient env cfg p with
            | none => reg
            | some c =>
              if passesGate env cfg p then (nm.Rename reg (resolvedLabel env c)).2 else reg)
          rest := by
  cases hc : CreateClient env cfg p with
  | none => simp [emittedFrom, hc]
  | some c =>
    by_cases hp : passesGate env cfg p = true
    · simp [emittedFrom, hc, hp]
    · simp [emittedFrom, hc, hp]

theorem loop_progress (st : State ρ) (l : List Proxy) :
    (workerLoop env nm cfg st l).progress =
      (fun x => wrap32 (x + 1))^[l.countP (binds env cfg)] st.progress := by
  induction l generalizing st with
  | nil => rfl
  | cons p rest ih =>
    rw [workerLoop, ih, step_progress, List.countP_cons]
    by_cases hb : binds env cfg p = true
    · simp [hb, Function.iterate_succ_apply]
    · simp [hb]

theorem loop_available (st : State ρ) (l : List Proxy) :
    (workerLoop env nm cfg st l).availableCount =
      (fun x => wrap32 (x + 1))^[l.countP (passesGate env cfg)] st.availableCount := by
  induction l generalizing st with
  | nil => rfl
  | cons p rest ih =>
    rw [workerLoop, ih, step_available, List.countP_cons]
    by_cases hb : passesGate env cfg p = true
    · simp [hb, Function.iterate_succ_apply]
    · simp [hb]

theorem loop_results (st : State ρ) (l : List Proxy) :
    (workerLoop env nm cfg st l).results =
      st.results ++ emittedFrom env nm cfg st.registry l := by
  induction l generalizing st with
  | nil => simp [workerLoop, emittedFrom]
  | cons p rest ih =>
    rw [workerLoop, ih, (step_results env nm cfg st p).1, (step_results env nm cfg st p).2,
      emittedFrom_cons env nm cfg st.registry p rest, List.append_assoc]

theorem emittedFrom_length (reg : ρ) (l : List Proxy) :
    (emittedFrom env nm cfg reg l).length = l.countP (passesGate env cfg) := by
  induction l generalizing reg with
  | nil => rfl
  | cons p rest ih =>
    rw [List.countP_cons]
    cases hc : CreateClient env cfg p with
    | none =>
      have hp : passesGate env cfg p = false := by simp [passesGate, hc]
      simp [emittedFrom, hc, hp, ih]
    | some c =>
      by_cases hp : passesGate env cfg p = true
      · simp [emittedFrom, hc, hp, ih]
      · simp [emittedFrom, hc, hp, ih]

theorem isResultOf_resultFor (reg : ρ) (p : Proxy) (c : Client)
    (hc : CreateClient env cfg p = some c) (hp : passesGate env cfg p = true) :
    IsResultOf env cfg p (resultFor env nm reg c p) := by
  obtain ⟨hcf, hg⟩ := (passesGate_of_bound env cfg p c hc).1 hp
  refine ⟨c, hc, by simp [resultFor, hcf], by simp [resultFor, hg], rfl, rfl, rfl, rfl, ?_⟩
  intro k hk
  simp [resultFor, mapGet_mapSet_other _ _ _ _ hk]

theorem iterate_bump_small (n : Nat) (x : Int) (h₁ : -2147483648 ≤ x)
    (h₂ : x + n < 2147483648) : (fun x => wrap32 (x + 1))^[n] x = x + n := by
  induction n generalizing x with
  | zero => simp
  | succ n ih =>
    rw [Function.iterate_succ_apply, wrap32_of_range (x + 1) (by omega) (by push_cast at h₂; omega),
      ih (x + 1) (by omega) (by push_cast at h₂ ⊢; omega)]
    push_cast
    omega

end Loop

/-! ## The moves of the pool -/

section Moves

variable {ρ : Type} (env : Env) (nm : Names ρ) (cfg : Config)

theorem bindStep_none (st : State ρ) (p : Proxy) (h : CreateClient env cfg p = none) :
    bindStep env cfg st p = ({ st with trace := st.trace ++ [.CreateClient] }, none) := by
  simp [bindStep, h, State.log]

theorem bindStep_some (st : State ρ) (p : Proxy) (c : Client)
    (h : CreateClient env cfg p = some c) :
    bindStep env cfg st p =
      ({ st with progress := wrap32 (st.progress + 1)
                 trace := st.trace ++ [.CreateClient, .incProgress] },
        some (.bound p c)) := by
  simp [bindStep, h, State.log]

theorem probeStep_cloudflare_fail (st : State ρ) (p : Proxy) (c : Client)
    (hcf : env.CheckCloudflare c ≠ (true, none)) :
    probeStep env nm st p c = ({ st with trace := st.trace ++ [.CheckCloudflare] }, none) := by
  have hf := (gate_fail_iff _).2 hcf
  unfold probeStep
  simp only []
  rw [if_pos hf]
  rfl

theorem probeStep_google_fail (st : State ρ) (p : Proxy) (c : Client)
    (hcf : env.CheckCloudflare c = (true, none)) (hg : env.CheckGoogle c ≠ (true, none)) :
    probeStep env nm st p c =
      ({ st with trace := st.trace ++ [.CheckCloudflare, .CheckGoogle] }, none) := by
  have hf := (gate_fail_iff _).2 hg
  have hok : ((env.CheckCloudflare c).2.isSome || !(env.CheckCloudflare c).1) = false := by
    rw [hcf]
    rfl
  unfold probeStep
  simp only []
  rw [if_neg (by rw [hok]; decide), if_pos hf]
  simp [State.log]

theorem probeStep_pass (st : State ρ) (p : Proxy) (c : Client)
    (hcf : env.CheckCloudflare c = (true, none)) (hg : env.CheckGoogle c = (true, none)) :
    probeStep env nm st p c =
      ({ st with registry := (nm.Rename st.registry (resolvedLabel env c)).2
                 trace := st.trace ++ probeEvents },
        some (.renamed p (resultFor env nm st.registry c p))) := by
  have hok : ((env.CheckCloudflare c).2.isSome || !(env.CheckCloudflare c).1) = false := by
    rw [hcf]
    rfl
  have hok2 : ((env.CheckGoogle c).2.isSome || !(env.CheckGoogle c).1) = false := by
    rw [hg]
    rfl
  unfold probeStep
  simp only []
  rw [if_neg (by rw [hok]; decide), if_neg (by rw [hok2]; decide)]
  by_cases hc : env.GetIPCountrynameFromdb (env.GetIPaddrFromAPI c) = ""
  · simp [resolvedLabel, hc, nameString_mapSet, probeEvents, resultFor, State.log, hcf, hg]
  · simp [resolvedLabel, hc, nameString_mapSet, probeEvents, resultFor, State.log, hcf, hg]

/-- The loop body is its four parts run one after the other. -/
theorem workerBody_eq_parts (st : State ρ) (p : Proxy) :
    workerBody env nm cfg st p =
      match bindStep env cfg st p with
      | (st₁, some (.bound q c)) =>
        match probeStep env nm st₁ q c with
        | (st₂, some (.renamed _ r)) => sendStep (countStep st₂) r
        | (st₂, _) => st₂
      | (st₁, _) => st₁ := by
  cases h : CreateClient env cfg p with
  | none => rw [workerBody_unbound env nm cfg st p h, bindStep_none env cfg st p h]
  | some c =>
    rw [bindStep_some env cfg st p c h]
    by_cases hcf : env.CheckCloudflare c = (true, none)
    · by_cases hg : env.CheckGoogle c = (true, none)
      · rw [workerBody_pass env nm cfg st p c h hcf hg]
        simp only []
        rw [probeStep_pass env nm _ p c hcf hg]
        simp [sendStep, countStep, State.log, passEvents, probeEvents, resultFor]
      · rw [workerBody_google_fail env nm cfg st p c h hcf hg]
        simp only []
        rw [probeStep_google_fail env nm _ p c hcf hg]
        simp
    · rw [workerBody_cloudflare_fail env nm cfg st p c h hcf]
      simp only []
      rw [probeStep_cloudflare_fail env nm _ p c hcf]
      simp

/-- Every move `advance` makes is one of the six moves of `Move`. -/
theorem advance_move (st : State ρ) (os : List Proxy) (w : Local) :
    Move env nm cfg st os w (advance env nm cfg st os w).1 (advance env nm cfg st os w).2.1
      (advance env nm cfg st os w).2.2 := by
  cases w with
  | taken p =>
    cases h : CreateClient env cfg p with
    | none =>
      simp only [advance, bindStep_none env cfg st p h]
      exact Move.unbound st os p h
    | some c =>
      simp only [advance, bindStep_some env cfg st p c h]
      exact Move.bind st os p c h
  | bound p c =>
    by_cases hcf : env.CheckCloudflare c = (true, none)
    · by_cases hg : env.CheckGoogle c = (true, none)
      · simp only [advance, probeStep_pass env nm st p c hcf hg]
        exact Move.rename st os p c hcf hg
      · simp only [advance, probeStep_google_fail env nm st p c hcf hg]
        exact Move.gateFail st os p c _ (fun h => hg h.2) (Or.inr rfl)
    · simp only [advance, probeStep_cloudflare_fail env nm st p c hcf]
      exact Move.gateFail st os p c _ (fun h => hcf h.1) (Or.inl rfl)
  | renamed o r =>
    simp only [advance, countStep, State.log]
    exact Move.count st os o r
  | counted o r =>
    simp only [advance, sendStep, State.log]
    exact Move.send st os o r

/-- The three things a step of the pool can be: nothing, when no worker is busy and
no task can be received; the receive of the next task by a free worker; or a move of a
busy worker. -/
theorem poolStep_cases (workers choice : Nat) (pool : Pool ρ) :
    (pool.busy = [] ∧ (pool.tasks = [] ∨ workers = 0) ∧
      poolStep env nm cfg workers choice pool = pool) ∨
    (∃ p rest, pool.tasks = p :: rest ∧ pool.busy.length < workers ∧
      poolStep env nm cfg workers choice pool =
        { pool with tasks := rest, busy := pool.busy ++ [.taken p] }) ∨
    (∃ pre w post, pool.busy = pre ++ w :: post ∧
      poolStep env nm cfg workers choice pool =
        { shared := (advance env nm cfg pool.shared pool.origins w).1
          tasks := pool.tasks
          busy := pre ++ (advance env nm cfg pool.shared pool.origins w).2.2.toList ++ post
          origins := (advance env nm cfg pool.shared pool.origins w).2.1 }) := by
  unfold poolStep
  simp only []
  by_cases hcan : (decide (pool.tasks ≠ []) && decide (pool.busy.length < workers)) = true
  · rw [if_pos hcan, if_neg (by omega)]
    simp only [Bool.and_eq_true, decide_eq_true_eq] at hcan
    obtain ⟨hne, hlt⟩ := hcan
    cases hget : pool.busy.get? (choice % (pool.busy.length + 1)) with
    | some w =>
      right; right
      obtain ⟨hi, hw⟩ := List.get?_eq_some.1 hget
      refine ⟨pool.busy.take (choice % (pool.busy.length + 1)), w,
        pool.busy.drop (choice % (pool.busy.length + 1) + 1), ?_, rfl⟩
      have := List.take_append_drop (choice % (pool.busy.length + 1)) pool.busy
      rw [List.drop_eq_getElem_cons hi] at this
      rw [← hw]
      exact this.symm
    | none =>
      simp only []
      cases htasks : pool.tasks with
      | nil => exact absurd htasks hne
      | cons p rest =>
        simp only []
        rw [if_pos hlt]
        exact Or.inr (Or.inl ⟨p, rest, rfl, hlt, rfl⟩)
  · rw [if_neg hcan, Nat.add_zero]
    by_cases h0 : pool.busy.length = 0
    · rw [if_pos h0]
      left
      refine ⟨List.length_eq_zero.1 h0, ?_, rfl⟩
      simp only [Bool.and_eq_true, decide_eq_true_eq, not_and, not_lt] at hcan
      by_cases ht : pool.tasks = []
      · exact Or.inl ht
      · exact Or.inr (by have := hcan ht; omega)
    · rw [if_neg h0]
      have hi : choice % pool.busy.length < pool.busy.length :=
        Nat.mod_lt _ (Nat.pos_of_ne_zero h0)
      have hget : pool.busy.get? (choice % pool.busy.length) =
          some (pool.busy.get ⟨choice % pool.busy.length, hi⟩) := List.get?_eq_get hi
      rw [hget]
      right; right
      refine ⟨pool.busy.take (choice % pool.busy.length),
        pool.busy.get ⟨choice % pool.busy.length, hi⟩,
        pool.busy.drop (choice % pool.busy.length + 1), ?_, rfl⟩
      have := List.take_append_drop (choice % pool.busy.length) pool.busy
      rw [List.drop_eq_getElem_cons hi] at this
      exact this.symm

end Moves

/-! ## The pool runs until every worker has returned -/

section Termination

variable {ρ : Type} (env : Env) (nm : Names ρ) (cfg : Config)

theorem move_weight {st st' : State ρ} {os os' : List Proxy} {w : Local} {w' : Option Local}
    (h : Move env nm cfg st os w st' os' w') :
    (w'.toList.map Local.weight).sum < w.weight := by
  cases h <;> simp [Local.weight]

theorem weight_pos (w : Local) : 0 < w.weight := by
  cases w <;> simp [Local.weight]

/-- With at least one worker, a step shortens what is left to do, unless nothing is. -/
theorem poolStep_progress (workers choice : Nat) (pool : Pool ρ) (hw : 1 ≤ workers) :
    (pool.tasks = [] ∧ pool.busy = []) ∨
      (poolStep env nm cfg workers choice pool).measure < pool.measure := by
  rcases poolStep_cases env nm cfg workers choice pool with ⟨hb, ht | h0, -⟩ |
    ⟨p, rest, ht, -, h⟩ | ⟨pre, w, post, hbusy, h⟩
  · exact Or.inl ⟨ht, hb⟩
  · omega
  · right
    rw [h]
    simp [Pool.measure, ht, Local.weight]
    omega
  · right
    rw [h]
    have hmv := move_weight env nm cfg
      (advance_move env nm cfg pool.shared pool.origins w)
    simp only [Pool.measure, hbusy, List.map_append, List.sum_append, List.map_cons,
      List.sum_cons]
    omega

/-- A pool with nothing queued and no busy worker stays as it is. -/
theorem poolStep_done (workers choice : Nat) (pool : Pool ρ) (ht : pool.tasks = [])
    (hb : pool.busy = []) : poolStep env nm cfg workers choice pool = pool := by
  simp [poolStep, ht, hb]

/-- A pool without workers stays as it is as long as no worker is busy. -/
theorem poolStep_no_worker (choice : Nat) (pool : Pool ρ) (hb : pool.busy = []) :
    poolStep env nm cfg 0 choice pool = pool := by
  simp [poolStep, hb]

theorem runSteps_no_worker (fuel t : Nat) (pool : Pool ρ) (hb : pool.busy = []) :
    runSteps env nm cfg 0 fuel t pool = pool := by
  induction fuel generalizing t with
  | zero => rfl
  | succ fuel ih => rw [runSteps, poolStep_no_worker env nm cfg _ pool hb, ih]

/-- With at least one worker and enough steps, the pool ends with the queue empty and
every worker back at `range tasks`, where the closed channel makes it return. -/
theorem runSteps_done (workers fuel t : Nat) (pool : Pool ρ) (hw : 1 ≤ workers)
    (hfuel : pool.measure ≤ fuel) :
    (runSteps env nm cfg workers fuel t pool).tasks = [] ∧
      (runSteps env nm cfg workers fuel t pool).busy = [] := by
  induction fuel generalizing t pool with
  | zero =>
    rcases poolStep_progress env nm cfg workers 0 pool hw with h | h
    · exact h
    · omega
  | succ fuel ih =>
    rw [runSteps]
    rcases poolStep_progress env nm cfg workers (env.pick t) pool hw with h | h
    · rw [poolStep_done env nm cfg workers _ pool h.1 h.2]
      apply ih
      simp [Pool.measure, h.1, h.2]
    · apply ih
      omega

/-- A step never makes more workers busy than were started. -/
theorem poolStep_busy_le (workers choice : Nat) (pool : Pool ρ)
    (h : pool.busy.length ≤ workers) :
    (poolStep env nm cfg workers choice pool).busy.length ≤ workers := by
  rcases poolStep_cases env nm cfg workers choice pool with ⟨-, -, hs⟩ |
    ⟨p, rest, -, hlt, hs⟩ | ⟨pre, w, post, hbusy, hs⟩
  · rw [hs]
    exact h
  · rw [hs]
    simp only [List.length_append, List.length_singleton]
    omega
  · rw [hs]
    rw [hbusy] at h
    have hle : (advance env nm cfg pool.shared pool.origins w).2.2.toList.length ≤ 1 := by
      cases (advance env nm cfg pool.shared pool.origins w).2.2 <;> simp
    simp only [List.length_append, List.length_cons] at h ⊢
    omega

/-- A property kept by every step holds when the pool has run. -/
theorem runSteps_induct (workers : Nat) (P : Pool ρ → Prop)
    (hstep : ∀ choice pool, P pool → P (poolStep env nm cfg workers choice pool))
    (fuel t : Nat) (pool : Pool ρ) (h : P pool) :
    P (runSteps env nm cfg workers fuel t pool) := by
  induction fuel generalizing t pool with
  | zero => exact h
  | succ fuel ih => exact ih _ _ (hstep _ _ h)

end Termination

/-! ## What every step of the pool keeps -/

section Invariant

variable {ρ : Type} (env : Env) (nm : Names ρ) (cfg : Config)

theorem occ_nil {α : Type} [DecidableEq α] (q : α) : occ q ([] : List α) = 0 := rfl

theorem occ_append {α : Type} [DecidableEq α] (q : α) (l₁ l₂ : List α) :
    occ q (l₁ ++ l₂) = occ q l₁ + occ q l₂ := by
  simp [occ, List.countP_append]

theorem perm_of_occ {α : Type} [DecidableEq α] (l₁ l₂ : List α)
    (h : ∀ q, occ q l₁ = occ q l₂) : l₁.Perm l₂ := by
  apply List.perm_iff_count.2
  intro q
  have h₁ : ∀ l : List α, l.count q = occ q l := by
    intro l
    simp only [List.count, occ]
    apply List.countP_congr
    intro x _
    simp
  rw [h₁, h₁]
  exact h q

theorem occ_filterMap_mid {α β : Type} [DecidableEq β] (f : α → Option β)
    (pre post : List α) (w : α) (q : β) :
    occ q ((pre ++ w :: post).filterMap f) =
      occ q (pre.filterMap f) + occ q (f w).toList + occ q (post.filterMap f) := by
  rw [List.filterMap_append, List.filterMap_cons, occ_append]
  cases f w with
  | none => simp [occ]
  | some b =>
    simp only [Option.toList, occ, List.countP_cons, List.countP_nil]
    omega

theorem occ_filterMap_opt {α β : Type} [DecidableEq β] (f : α → Option β)
    (pre post : List α) (w : Option α) (q : β) :
    occ q ((pre ++ w.toList ++ post).filterMap f) =
      occ q (pre.filterMap f) + occ q (w.bind f).toList + occ q (post.filterMap f) := by
  rw [List.filterMap_append, List.filterMap_append, occ_append, occ_append]
  cases w with
  | none => simp [occ]
  | some x =>
    cases hx : f x with
    | none => simp [hx, occ]
    | some b => simp [hx, occ]

theorem passesGate_false_of_unbound (p : Proxy) (h : CreateClient env cfg p = none) :
    passesGate env cfg p = false := by
  simp [passesGate, h]

theorem PoolInv_init (original : List Proxy) (reg : ρ) :
    PoolInv env cfg original []
      { shared := initState nm reg, tasks := original, busy := [], origins := [] } := by
  simp [PoolInv, initState, occ]

theorem PoolInv_take (original done : List Proxy) (pool : Pool ρ) (p : Proxy)
    (rest : List Proxy) (h : PoolInv env cfg original done pool)
    (ht : pool.tasks = p :: rest) :
    PoolInv env cfg original (done ++ [p])
      { pool with tasks := rest, busy := pool.busy ++ [.taken p] } := by
  obtain ⟨h0, hV, h1, h2, h3, h4, h5, h6, h7, h8⟩ := h
  refine ⟨?_, ?_, ?_, ?_, ?_, h4, h5, h6, ?_, h8⟩
  · simp [h0, ht]
  · intro w hw
    rcases List.mem_append.1 hw with hw | hw
    · exact hV w hw
    · simp only [List.mem_singleton] at hw
      subst hw
      trivial
  · simp only [List.countP_append, List.countP_cons, List.countP_nil, Local.isTaken,
      List.length_append, List.length_singleton]
    simp
    omega
  · simp only [List.countP_append, List.countP_cons, List.countP_nil, Local.willBind]
    simp only [if_true, zero_add, Nat.zero_add]
    omega
  · simp only [List.countP_append, List.countP_cons, List.countP_nil, Local.isCounted]
    simpa using h3
  · intro q
    have := h7 q
    by_cases hp : passesGate env cfg p = true
    · simp only [List.filterMap_append, List.filterMap_cons, List.filterMap_nil,
        Local.pendingOrigin, hp, if_true, occ_append, List.filter_append,
        List.filter_cons_of_pos, List.filter_nil]
      omega
    · simp only [List.filterMap_append, List.filterMap_cons, List.filterMap_nil,
        Local.pendingOrigin, hp, if_false, occ_append, List.filter_append,
        List.filter_cons_of_neg, List.filter_nil, Bool.false_eq_true, not_false_eq_true,
        occ_nil, List.append_nil]
      omega

theorem count_probeEvents :
    probeEvents.count Event.CreateClient = 0 ∧ probeEvents.count Event.incProgress = 0 ∧
    probeEvents.count Event.incAvailable = 0 ∧ probeEvents.count Event.send = 0 := by
  decide

theorem countP_mid {α : Type} (g : α → Bool) (pre post : List α) (w : α) :
    (pre ++ w :: post).countP g = pre.countP g + (if g w then 1 else 0) + post.countP g := by
  rw [List.countP_append, List.countP_cons]
  omega

theorem countP_opt {α : Type} (g : α → Bool) (pre post : List α) (w : Option α) :
    (pre ++ w.toList ++ post).countP g =
      pre.countP g + w.toList.countP g + post.countP g := by
  rw [List.countP_append, List.countP_append]

theorem PoolInv_move (original done : List Proxy) (pool : Pool ρ) (pre post : List Local)
    (w : Local) (st' : State ρ) (os' : List Proxy) (w' : Option Local)
    (h : PoolInv env cfg original done pool) (hbusy : pool.busy = pre ++ w :: post)
    (hm : Move env nm cfg pool.shared pool.origins w st' os' w') :
    PoolInv env cfg original done
      { shared := st', tasks := pool.tasks, busy := pre ++ w'.toList ++ post,
        origins := os' } := by
  obtain ⟨h0, hV, h1, h2, h3, h4, h5, h6, h7, h8⟩ := h
  rw [hbusy] at hV
  rw [hbusy, countP_mid] at h1 h2 h3
  have h7' : ∀ q, occ q pool.origins +
      (occ q (pre.filterMap (Local.pendingOrigin env cfg)) +
        occ q (Local.pendingOrigin env cfg w).toList +
        occ q (post.filterMap (Local.pendingOrigin env cfg))) =
      occ q (done.filter (passesGate env cfg)) := by
    intro q
    have := h7 q
    rw [hbusy, occ_filterMap_mid] at this
    exact this
  have hVpre : ∀ x ∈ pre, x.Valid env cfg := fun x hx =>
    hV x (List.mem_append_left _ hx)
  have hVpost : ∀ x ∈ post, x.Valid env cfg := fun x hx =>
    hV x (List.mem_append_right _ (List.mem_cons_of_mem _ hx))
  have hVw : w.Valid env cfg := hV w (List.mem_append_right _ (List.mem_cons_self _ _))
  have hVnew : ∀ x, (∀ y ∈ w'.toList, y.Valid env cfg) → x ∈ pre ++ w'.toList ++ post →
      x.Valid env cfg := by
    intro x hy hx
    rcases List.mem_append.1 hx with hx | hx
    · rcases List.mem_append.1 hx with hx | hx
      · exact hVpre x hx
      · exact hy x hx
    · exact hVpost x hx
  obtain ⟨hc1, hc2, hc3, hc4⟩ := count_probeEvents
  simp only [PoolInv, countP_opt, occ_filterMap_opt]
  cases hm with
  | unbound p hcl =>
    have hb : binds env cfg p = false := by simp [binds, hcl]
    have hp : passesGate env cfg p = false := passesGate_false_of_unbound env cfg p hcl
    simp only [Local.isTaken, Local.willBind, Local.isCounted, Local.pendingOrigin, hb, hp,
      if_true, Bool.false_eq_true, if_false, Option.toList, occ_nil] at h1 h2 h3 h7'
    refine ⟨h0, fun x hx => hVnew x (by simp) hx, ?_, ?_, ?_, h4, ?_, ?_, ?_, h8⟩
    · simp [List.count_append]
      omega
    · simp [List.count_append]
      omega
    · simp [List.count_append]
      omega
    · simpa [List.count_append] using h5
    · simpa [List.count_append] using h6
    · intro q
      have := h7' q
      simp only [Option.bind, Option.toList, occ_nil] at this ⊢
      omega
  | bind p c hcl =>
    have hb : binds env cfg p = true := by simp [binds, hcl]
    simp only [Local.isTaken, Local.willBind, Local.isCounted, hb,
      if_true, Bool.false_eq_true, if_false] at h1 h2 h3
    refine ⟨h0, fun x hx => hVnew x (by simpa [Local.Valid] using hcl) hx, ?_, ?_, ?_, h4,
      ?_, ?_, ?_, h8⟩
    · simp [List.count_append, Local.isTaken]
      omega
    · simp [List.count_append, Local.willBind]
      omega
    · simp [List.count_append, Local.isCounted]
      omega
    · simp only [List.count_append]
      rw [show List.count Event.incProgress [Event.CreateClient, Event.incProgress] = 1 from
        by decide, Function.iterate_succ_apply', ← h5]
    · simpa [List.count_append] using h6
    · intro q
      have := h7' q
      simp only [Option.bind, Local.pendingOrigin] at this ⊢
      omega
  | gateFail p c evs hfail hevs =>
    have hcl : CreateClient env cfg p = some c := hVw
    have hp : passesGate env cfg p = false := by
      have := passesGate_of_bound env cfg p c hcl
      cases hpp : passesGate env cfg p with
      | false => rfl
      | true => exact absurd (this.1 hpp) hfail
    have hev : evs.count Event.CreateClient = 0 ∧ evs.count Event.incProgress = 0 ∧
        evs.count Event.incAvailable = 0 ∧ evs.count Event.send = 0 := by
      rcases hevs with rfl | rfl <;> decide
    obtain ⟨he1, he2, he3, he4⟩ := hev
    simp only [Local.isTaken, Local.willBind, Local.isCounted, Local.pendingOrigin, hp,
      if_true, Bool.false_eq_true, if_false, Option.toList, occ_nil] at h1 h2 h3 h7'
    refine ⟨h0, fun x hx => hVnew x (by simp) hx, ?_, ?_, ?_, h4, ?_, ?_, ?_, h8⟩
    · simp [List.count_append, he1]
      omega
    · simp [List.count_append, he2]
      omega
    · simp [List.count_append, he3]
      omega
    · simp only [List.count_append, he2, Nat.add_zero]
      exact h5
    · simp only [List.count_append, he3, Nat.add_zero]
      exact h6
    · intro q
      have := h7' q
      simp only [Option.bind, Option.toList, occ_nil] at this ⊢
      omega
  | rename p c hcf hg =>
    have hcl : CreateClient env cfg p = some c := hVw
    have hp : passesGate env cfg p = true := (passesGate_of_bound env cfg p c hcl).2 ⟨hcf, hg⟩
    simp only [Local.isTaken, Local.willBind, Local.isCounted, Local.pendingOrigin, hp,
      if_true, Bool.false_eq_true, if_false] at h1 h2 h3 h7'
    refine ⟨h0, fun x hx => hVnew x ?_ hx, ?_, ?_, ?_, h4, ?_, ?_, ?_, h8⟩
    · intro y hy
      simp only [Option.toList, List.mem_singleton] at hy
      subst hy
      exact ⟨hp, isResultOf_resultFor env nm cfg _ p c hcl hp⟩
    · simp [List.count_append, Local.isTaken, hc1]
      omega
    · simp [List.count_append, Local.willBind, hc2]
      omega
    · simp [List.count_append, Local.isCounted, hc3]
      omega
    · simp only [List.count_append, hc2, Nat.add_zero]
      exact h5
    · simp only [List.count_append, hc3, Nat.add_zero]
      exact h6
    · intro q
      have := h7' q
      simp only [Option.bind, Local.pendingOrigin] at this ⊢
      omega
  | count o r =>
    have hval : passesGate env cfg o = true ∧ IsResultOf env cfg o r := hVw
    simp only [Local.isTaken, Local.willBind, Local.isCounted, Local.pendingOrigin,
      if_true, Bool.false_eq_true, if_false] at h1 h2 h3 h7'
    refine ⟨h0, fun x hx => hVnew x ?_ hx, ?_, ?_, ?_, h4, ?_, ?_, ?_, h8⟩
    · intro y hy
      simp only [Option.toList, List.mem_singleton] at hy
      subst hy
      exact hval
    · simp [List.count_append, Local.isTaken]
      omega
    · simp [List.count_append, Local.willBind]
      omega
    · simp [List.count_append, Local.isCounted]
      omega
    · simpa [List.count_append] using h5
    · simp only [List.count_append]
      rw [show List.count Event.incAvailable [Event.incAvailable] = 1 from by decide,
        Function.iterate_succ_apply', ← h6]
    · intro q
      have := h7' q
      simp only [Option.bind, Local.pendingOrigin] at this ⊢
      omega
  | send o r =>
    have hval : passesGate env cfg o = true ∧ IsResultOf env cfg o r := hVw
    simp only [Local.isTaken, Local.willBind, Local.isCounted, Local.pendingOrigin,
      if_true, Bool.false_eq_true, if_false] at h1 h2 h3 h7'
    refine ⟨h0, fun x hx => hVnew x (by simp) hx, ?_, ?_, ?_, ?_, ?_, ?_, ?_, ?_⟩
    · simp [List.count_append]
      omega
    · simp [List.count_append]
      omega
    · simp [List.count_append]
      omega
    · simp only [List.length_append, List.length_singleton]
      omega
    · simpa [List.count_append] using h5
    · simpa [List.count_append] using h6
    · intro q
      have := h7' q
      simp only [Option.bind, Option.toList, occ_append, occ_nil] at this ⊢
      omega
    · exact List.rel_append h8 (List.Forall₂.cons hval.2 List.Forall₂.nil)

/-- Every step of the pool keeps the facts of `PoolInv`, for a longer list of received
tasks when the step is a receive. -/
theorem PoolInv_step (workers choice : Nat) (original done : List Proxy) (pool : Pool ρ)
    (h : PoolInv env cfg original done pool) :
    ∃ done', PoolInv env cfg original done' (poolStep env nm cfg workers choice pool) := by
  rcases poolStep_cases env nm cfg workers choice pool with ⟨-, -, hs⟩ |
    ⟨p, rest, ht, -, hs⟩ | ⟨pre, w, post, hbusy, hs⟩
  · exact ⟨done, by rw [hs]; exact h⟩
  · exact ⟨done ++ [p], by rw [hs]; exact PoolInv_take env cfg original done pool p rest h ht⟩
  · refine ⟨done, ?_⟩
    rw [hs]
    exact PoolInv_move env nm cfg original done pool pre post w _ _ _ h hbusy
      (advance_move env nm cfg pool.shared pool.origins w)

theorem PoolInv_run (workers fuel t : Nat) (original : List Proxy) (reg : ρ) :
    ∃ done, PoolInv env cfg original done
      (runSteps env nm cfg workers fuel t
        { shared := initState nm reg, tasks := original, busy := [], origins := [] }) :=
  runSteps_induct env nm cfg workers (fun pool => ∃ done, PoolInv env cfg original done pool)
    (fun choice pool ⟨done, h⟩ => PoolInv_step env nm cfg workers choice original done pool h)
    fuel t _ ⟨[], PoolInv_init env nm cfg original reg⟩

end Invariant

/-! ## The pool when every worker has returned -/

section Final

variable {ρ : Type} (env : Env) (nm : Names ρ) (cfg : Config)

theorem workers_pos (l : List Proxy) (hc : 1 ≤ cfg.Concurrent) (hne : l ≠ []) :
    1 ≤ workersStarted (threadCount cfg l.length) := by
  have hlen : 0 < l.length := List.length_pos.2 hne
  unfold workersStarted threadCount
  split <;> omega

theorem workers_zero (l : List Proxy) (hc : cfg.Concurrent ≤ 0) :
    workersStarted (threadCount cfg l.length) = 0 := by
  unfold workersStarted threadCount
  split <;> omega

theorem workers_zero_nil : workersStarted (threadCount cfg ([] : List Proxy).length) = 0 := by
  simp only [List.length_nil, Nat.cast_zero, workersStarted, threadCount]
  split <;> omega

/-- With a concurrency of zero or less no worker is started and the pool stays as it was
set up: every task queued, nothing sent. -/
theorem runPool_no_worker (st : State ρ) (l : List Proxy) (hc : cfg.Concurrent ≤ 0) :
    runPool env nm cfg st l = { shared := st, tasks := l, busy := [], origins := [] } := by
  unfold runPool
  rw [workers_zero cfg l hc]
  exact runSteps_no_worker env nm cfg _ _ _ rfl

/-- Without tasks no worker is started. -/
theorem runPool_nil (st : State ρ) :
    runPool env nm cfg st [] = { shared := st, tasks := [], busy := [], origins := [] } := by
  unfold runPool
  rw [workers_zero_nil cfg]
  exact runSteps_no_worker env nm cfg _ _ _ rfl

/-- At no step of the pool are more workers inside the loop body than were started. -/
theorem runSteps_busy_le (workers fuel t : Nat) (pool : Pool ρ)
    (h : pool.busy.length ≤ workers) :
    (runSteps env nm cfg workers fuel t pool).busy.length ≤ workers :=
  runSteps_induct env nm cfg workers (fun pool => pool.busy.length ≤ workers)
    (fun choice pool hp => poolStep_busy_le env nm cfg workers choice pool hp) fuel t pool h

/-- When the pool has run, no worker is inside the loop body; with a configured
concurrency of at least one the queue is empty. -/
theorem runPool_done (st : State ρ) (l : List Proxy) :
    (runPool env nm cfg st l).busy = [] ∧
      (1 ≤ cfg.Concurrent → (runPool env nm cfg st l).tasks = []) := by
  by_cases hw : 1 ≤ workersStarted (threadCount cfg l.length)
  · have hd := runSteps_done env nm cfg (workersStarted (threadCount cfg l.length))
      (5 * l.length) 0 { shared := st, tasks := l, busy := [], origins := [] } hw
      (by simp [Pool.measure])
    exact ⟨hd.2, fun _ => hd.1⟩
  · have h0 : workersStarted (threadCount cfg l.length) = 0 := by omega
    have hrun : runPool env nm cfg st l =
        { shared := st, tasks := l, busy := [], origins := [] } := by
      unfold runPool
      rw [h0]
      exact runSteps_no_worker env nm cfg _ _ _ rfl
    rw [hrun]
    refine ⟨rfl, fun hc => ?_⟩
    by_cases hne : l = []
    · exact hne
    · exact absurd (workers_pos cfg l hc hne) hw

/-- The state of the pool when every worker has returned, in terms of the tasks `done`
that were received: one `CreateClient` call per received task, `progress` incremented
once per received task that binds, `availableCount` incremented and a Result sent once
per received task that passes the gate. With a configured concurrency of at least one
every task was received. -/
theorem runPool_final (reg : ρ) (l : List Proxy) :
    ∃ done, l = done ++ (runPool env nm cfg (initState nm reg) l).tasks ∧
      (runPool env nm cfg (initState nm reg) l).busy = [] ∧
      (1 ≤ cfg.Concurrent → done = l) ∧
      (runPool env nm cfg (initState nm reg) l).shared.trace.count Event.CreateClient =
        done.length ∧
      (runPool env nm cfg (initState nm reg) l).shared.trace.count Event.incProgress =
        done.countP (binds env cfg) ∧
      (runPool env nm cfg (initState nm reg) l).shared.progress =
        (fun x => wrap32 (x + 1))^[done.countP (binds env cfg)] 0 ∧
      (runPool env nm cfg (initState nm reg) l).shared.availableCount =
        (fun x => wrap32 (x + 1))^[done.countP (passesGate env cfg)] 0 ∧
      (runPool env nm cfg (initState nm reg) l).shared.results.length =
        done.countP (passesGate env cfg) ∧
      (runPool env nm cfg (initState nm reg) l).origins.Perm
        (done.filter (passesGate env cfg)) ∧
      List.Forall₂ (IsResultOf env cfg) (runPool env nm cfg (initState nm reg) l).origins
        (runPool env nm cfg (initState nm reg) l).shared.results := by
  obtain ⟨hbusy, htasks⟩ := runPool_done env nm cfg (initState nm reg) l
  obtain ⟨done, h0, -, h1, h2, h3, h4, h5, h6, h7, h8⟩ :=
    PoolInv_run env nm cfg (workersStarted (threadCount cfg l.length)) (5 * l.length) 0 l reg
  change l = done ++ (runPool env nm cfg (initState nm reg) l).tasks at h0
  change (runPool env nm cfg (initState nm reg) l).shared.trace.count Event.CreateClient +
    (runPool env nm cfg (initState nm reg) l).busy.countP Local.isTaken = done.length at h1
  change (runPool env nm cfg (initState nm reg) l).shared.trace.count Event.incProgress +
    (runPool env nm cfg (initState nm reg) l).busy.countP (Local.willBind env cfg) =
      done.countP (binds env cfg) at h2
  change (runPool env nm cfg (initState nm reg) l).shared.trace.count Event.incAvailable =
    (runPool env nm cfg (initState nm reg) l).origins.length +
      (runPool env nm cfg (initState nm reg) l).busy.countP Local.isCounted at h3
  change (runPool env nm cfg (initState nm reg) l).origins.length =
    (runPool env nm cfg (initState nm reg) l).shared.results.length at h4
  change (runPool env nm cfg (initState nm reg) l).shared.progress =
    (fun x => wrap32 (x + 1))^[(runPool env nm cfg (initState nm reg)
      l).shared.trace.count Event.incProgress] 0 at h5
  change (runPool env nm cfg (initState nm reg) l).shared.availableCount =
    (fun x => wrap32 (x + 1))^[(runPool env nm cfg (initState nm reg)
      l).shared.trace.count Event.incAvailable] 0 at h6
  change ∀ q, occ q (runPool env nm cfg (initState nm reg) l).origins +
    occ q ((runPool env nm cfg (initState nm reg) l).busy.filterMap
      (Local.pendingOrigin env cfg)) = occ q (done.filter (passesGate env cfg)) at h7
  change List.Forall₂ (IsResultOf env cfg) (runPool env nm cfg (initState nm reg) l).origins
    (runPool env nm cfg (initState nm reg) l).shared.results at h8
  rw [hbusy] at h1 h2 h3 h7
  simp only [List.countP_nil, Nat.add_zero, List.filterMap_nil, occ_nil] at h1 h2 h3 h7
  have hperm : (runPool env nm cfg (initState nm reg) l).origins.Perm
      (done.filter (passesGate env cfg)) := perm_of_occ _ _ h7
  have hlen : (runPool env nm cfg (initState nm reg) l).origins.length =
      done.countP (passesGate env cfg) := by
    rw [hperm.length_eq, List.countP_eq_length_filter]
  refine ⟨done, h0, hbusy, ?_, h1, h2, ?_, ?_, ?_, hperm, h8⟩
  · intro hc
    rw [htasks hc, List.append_nil] at h0
    exact h0.symm
  · rw [h5, h2]
  · rw [h6, h3, hlen]
  · rw [← h4, hlen]

end Final

/-! ## Decimal rendering -/

theorem digitChar_value (d : Nat) (h : d < 10) : (Nat.digitChar d).toNat - 48 = d := by
  interval_cases d <;> rfl

theorem digitsValue_toDigitsCore (fuel n : Nat) (ds : List Char) (h : n < fuel) :
    digitsValue 0 (Nat.toDigitsCore 10 fuel n ds) = digitsValue n ds := by
  induction fuel generalizing n ds with
  | zero => omega
  | succ fuel ih =>
    unfold Nat.toDigitsCore
    have hd := digitChar_value (n % 10) (Nat.mod_lt _ (by omega))
    by_cases hz : n / 10 = 0
    · simp only [hz, if_true]
      simp only [digitsValue, List.foldl_cons, hd]
      have : 10 * 0 + n % 10 = n := by omega
      rw [this]
    · simp only [hz, if_false]
      rw [ih (n / 10) _ (by omega)]
      simp only [digitsValue, List.foldl_cons, hd]
      have : 10 * (n / 10) + n % 10 = n := by omega
      rw [this]

theorem toString_nat_injective (a b : Nat) (h : toString a = toString b) : a = b := by
  have h₁ : Nat.toDigits 10 a = Nat.toDigits 10 b := by
    have : (Nat.toDigits 10 a).asString = (Nat.toDigits 10 b).asString := h
    exact congrArg String.data this
  have ha := digitsValue_toDigitsCore (a + 1) a [] (by omega)
  have hb := digitsValue_toDigitsCore (b + 1) b [] (by omega)
  unfold Nat.toDigits at h₁
  rw [h₁, hb] at ha
  simpa [digitsValue] using ha.symm

theorem append_dash_injective (X s t : String) (h : X ++ "-" ++ s = X ++ "-" ++ t) : s = t := by
  have := congrArg String.data h
  simp only [String.data_append, List.append_assoc, List.append_cancel_left_eq] at this
  exact String.ext this

theorem ne_append_dash (X s : String) : X ≠ X ++ "-" ++ s := by
  intro h
  have := congrArg String.length h
  simp [String.length_append] at this
  have h2 : "-".length = 1 := rfl
  omega

/-! ## The de-collision sequence -/

theorem suffixed_injective (X : String) (i j : Nat) (h : suffixed X i = suffixed X j) :
    i = j := by
  unfold suffixed at h
  by_cases hi : i = 0 <;> by_cases hj : j = 0
  · omega
  · simp only [hi, hj, if_true, if_false] at h
    exact absurd h (ne_append_dash X _)
  · simp only [hi, hj, if_true, if_false] at h
    exact absurd h.symm (ne_append_dash X _)
  · simp only [hi, hj, if_false] at h
    have := toString_nat_injective _ _ (append_dash_injective X _ _ h)
    omega

theorem suffixed_nodup (X : String) (N : Nat) : ((List.range N).map (suffixed X)).Nodup :=
  (List.nodup_range N).map fun i j h => suffixed_injective X i j h

theorem suffixed_count_base (X : String) (N : Nat) (hN : 1 ≤ N) :
    ((List.range N).map (suffixed X)).count X = 1 := by
  have hmem : X ∈ (List.range N).map (suffixed X) :=
    List.mem_map.2 ⟨0, List.mem_range.2 (by omega), by simp [suffixed]⟩
  exact List.count_eq_one_of_mem (suffixed_nodup X N) hmem

theorem rename_fst (reg : Registry) (X : String) (n : Nat)
    (h : mapGet reg X = if n = 0 then none else some n) : (Rename reg X).1 = suffixed X n := by
  by_cases hn : n = 0
  · simp [hn] at h
    simp [Rename, h, suffixed, hn]
  · simp [hn] at h
    simp [Rename, h, suffixed, hn]

theorem rename_snd_same (reg : Registry) (X : String) (n : Nat)
    (h : mapGet reg X = if n = 0 then none else some n) :
    mapGet (Rename reg X).2 X = if n + 1 = 0 then none else some (n + 1) := by
  by_cases hn : n = 0
  · simp [hn] at h
    simp [Rename, h, hn, mapGet_mapSet_self]
  · simp [hn] at h
    simp [Rename, h, mapGet_mapSet_self]

theorem rename_snd_other (reg : Registry) (L X : String) (h : L ≠ X) :
    mapGet (Rename reg L).2 X = mapGet reg X := by
  unfold Rename
  cases mapGet reg L with
  | none => exact mapGet_mapSet_other _ _ _ _ (Ne.symm h)
  | some k => exact mapGet_mapSet_other _ _ _ _ (Ne.symm h)

theorem displayName_resultFor (env : Env) (reg : Registry) (c : Client) (p : Proxy) :
    displayName (resultFor env proxyutils reg c p) = (Rename reg (resolvedLabel env c)).1 := by
  simp [displayName, resultFor, nameString_mapSet, proxyutils]

theorem baseLabel_of_pass (env : Env) (cfg : Config) (p : Proxy) (c : Client)
    (hc : CreateClient env cfg p = some c) (hp : passesGate env cfg p = true) :
    baseLabel env cfg p = some (resolvedLabel env c) := by
  simp [baseLabel, hc, hp]

theorem baseLabel_of_drop (env : Env) (cfg : Config) (p : Proxy)
    (hp : ¬ passesGate env cfg p = true) : baseLabel env cfg p = none := by
  unfold baseLabel
  cases CreateClient env cfg p with
  | none => rfl
  | some c => simp [hp]

theorem namesWithLabel_cons_pos (env : Env) (cfg : Config) (X : String) (p : Proxy)
    (r : Result) (ps : List Proxy) (rs : List Result) (h : baseLabel env cfg p = some X) :
    namesWithLabel env cfg X (p :: ps) (r :: rs) =
      displayName r :: namesWithLabel env cfg X ps rs := by
  simp [namesWithLabel, h]

theorem namesWithLabel_cons_neg (env : Env) (cfg : Config) (X : String) (p : Proxy)
    (r : Result) (ps : List Proxy) (rs : List Result) (h : baseLabel env cfg p ≠ some X) :
    namesWithLabel env cfg X (p :: ps) (r :: rs) = namesWithLabel env cfg X ps rs := by
  simp [namesWithLabel, h]

/-! ## The names given out by the pool -/

section Names

variable (env : Env) (cfg : Config) (X : String)

theorem namesWithLabel_snoc (os : List Proxy) (rs : List Result) (o : Proxy) (r : Result)
    (hlen : os.length = rs.length) :
    namesWithLabel env cfg X (os ++ [o]) (rs ++ [r]) =
      namesWithLabel env cfg X os rs ++
        (if baseLabel env cfg o = some X then [displayName r] else []) := by
  unfold namesWithLabel
  rw [List.zip_append hlen, List.filter_append, List.map_append]
  by_cases h : baseLabel env cfg o = some X
  · simp [h]
  · simp [h]

theorem namesWithLabel_length (os : List Proxy) (rs : List Result)
    (hlen : os.length = rs.length) :
    (namesWithLabel env cfg X os rs).length =
      os.countP fun p => decide (baseLabel env cfg p = some X) := by
  induction os generalizing rs with
  | nil => simp [namesWithLabel]
  | cons o os ih =>
    cases rs with
    | nil => simp at hlen
    | cons r rs =>
      have hl : os.length = rs.length := by simpa using hlen
      by_cases h : baseLabel env cfg o = some X
      · rw [namesWithLabel_cons_pos env cfg X o r os rs h, List.length_cons, ih rs hl,
          List.countP_cons_of_pos _ _ (by simpa using h)]
      · rw [namesWithLabel_cons_neg env cfg X o r os rs h, ih rs hl,
          List.countP_cons_of_neg _ _ (by simpa using h)]

theorem NamesInv_init (original : List Proxy) (reg : Registry) :
    NamesInv env cfg X
      { shared := initState proxyutils reg, tasks := original, busy := [], origins := [] } :=
  ⟨0, by simp [initState, proxyutils, ResetRenameCounter, mapGet],
    by simp [namesWithLabel, occ]⟩

theorem NamesInv_take (pool : Pool Registry) (p : Proxy) (rest : List Proxy)
    (h : NamesInv env cfg X pool) :
    NamesInv env cfg X { pool with tasks := rest, busy := pool.busy ++ [.taken p] } := by
  obtain ⟨n, hreg, hocc⟩ := h
  refine ⟨n, hreg, fun a => ?_⟩
  have := hocc a
  simpa [List.filterMap_append, Local.heldName] using this

theorem NamesInv_move (original done : List Proxy) (pool : Pool Registry)
    (pre post : List Local) (w : Local) (st' : State Registry) (os' : List Proxy)
    (w' : Option Local) (hinv : PoolInv env cfg original done pool)
    (h : NamesInv env cfg X pool) (hbusy : pool.busy = pre ++ w :: post)
    (hm : Move env proxyutils cfg pool.shared pool.origins w st' os' w') :
    NamesInv env cfg X
      { shared := st', tasks := pool.tasks, busy := pre ++ w'.toList ++ post,
        origins := os' } := by
  obtain ⟨-, hV, -, -, -, h4, -, -, -, -⟩ := hinv
  have hVw : w.Valid env cfg := by
    apply hV
    rw [hbusy]
    exact List.mem_append_right _ (List.mem_cons_self _ _)
  obtain ⟨n, hreg, hocc⟩ := h
  have hocc' : ∀ a, occ a (namesWithLabel env cfg X pool.origins pool.shared.results) +
      (occ a (pre.filterMap (Local.heldName env cfg X)) +
        occ a (Local.heldName env cfg X w).toList +
        occ a (post.filterMap (Local.heldName env cfg X))) =
      occ a ((List.range n).map (suffixed X)) := by
    intro a
    have := hocc a
    rw [hbusy, occ_filterMap_mid] at this
    exact this
  simp only [NamesInv, occ_filterMap_opt]
  cases hm with
  | unbound p hcl =>
    refine ⟨n, hreg, fun a => ?_⟩
    have := hocc' a
    simp only [Local.heldName, Option.bind, Option.toList, occ_nil] at this ⊢
    omega
  | bind p c hcl =>
    refine ⟨n, hreg, fun a => ?_⟩
    have := hocc' a
    simp only [Local.heldName, Option.bind, Option.toList, occ_nil] at this ⊢
    omega
  | gateFail p c evs hfail hevs =>
    refine ⟨n, hreg, fun a => ?_⟩
    have := hocc' a
    simp only [Local.heldName, Option.bind, Option.toList, occ_nil] at this ⊢
    omega
  | rename p c hcf hg =>
    have hcl : CreateClient env cfg p = some c := hVw
    have hp : passesGate env cfg p = true := (passesGate_of_bound env cfg p c hcl).2 ⟨hcf, hg⟩
    have hb := baseLabel_of_pass env cfg p c hcl hp
    by_cases hX : resolvedLabel env c = X
    · refine ⟨n + 1, ?_, fun a => ?_⟩
      · have := rename_snd_same pool.shared.registry X n hreg
        rw [hX]
        exact this
      · have := hocc' a
        have hname : displayName (resultFor env proxyutils pool.shared.registry c p) =
            suffixed X n := by
          rw [displayName_resultFor, hX, rename_fst _ X n hreg]
        have hbX : baseLabel env cfg p = some X := by rw [hb, hX]
        simp only [Local.heldName, Option.bind, Option.toList, occ_nil, hbX, if_true,
          hname, List.range_succ, List.map_append, List.map_cons, List.map_nil,
          occ_append] at this ⊢
        omega
    · refine ⟨n, ?_, fun a => ?_⟩
      · have := rename_snd_other pool.shared.registry (resolvedLabel env c) X hX
        show mapGet (proxyutils.Rename pool.shared.registry (resolvedLabel env c)).2 X = _
        rw [show proxyutils.Rename = Rename from rfl, this]
        exact hreg
      · have := hocc' a
        have hbX : ¬ baseLabel env cfg p = some X := by
          rw [hb]
          simpa using hX
        simp only [Local.heldName, Option.bind, Option.toList, occ_nil, hbX, if_false]
          at this ⊢
        omega
  | count o r =>
    refine ⟨n, hreg, fun a => ?_⟩
    have := hocc' a
    simp only [Local.heldName, Option.bind] at this ⊢
    omega
  | send o r =>
    refine ⟨n, hreg, fun a => ?_⟩
    have := hocc' a
    simp only [namesWithLabel_snoc env cfg X _ _ o r h4, occ_append]
    by_cases hbX : baseLabel env cfg o = some X
    · simp only [Local.heldName, Option.bind, Option.toList, occ_nil, hbX, if_true]
        at this ⊢
      omega
    · simp only [Local.heldName, Option.bind, Option.toList, occ_nil, hbX, if_false]
        at this ⊢
      omega

/-- The facts of `PoolInv` and `NamesInv` hold when the pool has run with the registry
of the spec. -/
theorem PoolInv_NamesInv_run (workers fuel t : Nat) (original : List Proxy)
    (reg : Registry) :
    ∃ done, PoolInv env cfg original done
        (runSteps env proxyutils cfg workers fuel t
          { shared := initState proxyutils reg, tasks := original, busy := [],
            origins := [] }) ∧
      NamesInv env cfg X
        (runSteps env proxyutils cfg workers fuel t
          { shared := initState proxyutils reg, tasks := original, busy := [],
            origins := [] }) := by
  apply runSteps_induct env proxyutils cfg workers
    (fun pool => ∃ done, PoolInv env cfg original done pool ∧ NamesInv env cfg X pool)
  · rintro choice pool ⟨done, hinv, hnames⟩
    rcases poolStep_cases env proxyutils cfg workers choice pool with ⟨-, -, hs⟩ |
      ⟨p, rest, ht, -, hs⟩ | ⟨pre, w, post, hbusy, hs⟩
    · exact ⟨done, by rw [hs]; exact ⟨hinv, hnames⟩⟩
    · refine ⟨done ++ [p], ?_⟩
      rw [hs]
      exact ⟨PoolInv_take env cfg original done pool p rest hinv ht,
        NamesInv_take env cfg X pool p rest hnames⟩
    · refine ⟨done, ?_⟩
      rw [hs]
      exact ⟨PoolInv_move env proxyutils cfg original done pool pre post w _ _ _ hinv hbusy
          (advance_move env proxyutils cfg pool.shared pool.origins w),
        NamesInv_move env cfg X original done pool pre post w _ _ _ hinv hnames hbusy
          (advance_move env proxyutils cfg pool.shared pool.origins w)⟩
  · exact ⟨[], PoolInv_init env proxyutils cfg original reg, NamesInv_init env cfg X original reg⟩

/-- The names of the Results sent for the label `X`, when the pool has run with the
registry of the spec: a rearrangement of the first so many of `X, X-2, X-3, ...`, as many
as there are candidates with that label among those whose Result was sent. -/
theorem runPool_names (reg : Registry) (l : List Proxy) :
    (namesWithLabel env cfg X (runPool env proxyutils cfg (initState proxyutils reg) l).origins
        (runPool env proxyutils cfg (initState proxyutils reg) l).shared.results).Perm
      ((List.range ((runPool env proxyutils cfg (initState proxyutils reg) l).origins.countP
        fun p => decide (baseLabel env cfg p = some X))).map (suffixed X)) := by
  obtain ⟨hbusy, -⟩ := runPool_done env proxyutils cfg (initState proxyutils reg) l
  obtain ⟨done, hinv, n, -, hocc⟩ := PoolInv_NamesInv_run env cfg X
    (workersStarted (threadCount cfg l.length)) (5 * l.length) 0 l reg
  have h4 : (runPool env proxyutils cfg (initState proxyutils reg) l).origins.length =
      (runPool env proxyutils cfg (initState proxyutils reg) l).shared.results.length :=
    hinv.2.2.2.2.2.1
  change ∀ a, occ a (namesWithLabel env cfg X
      (runPool env proxyutils cfg (initState proxyutils reg) l).origins
      (runPool env proxyutils cfg (initState proxyutils reg) l).shared.results) +
    occ a ((runPool env proxyutils cfg (initState proxyutils reg) l).busy.filterMap
      (Local.heldName env cfg X)) = occ a ((List.range n).map (suffixed X)) at hocc
  rw [hbusy] at hocc
  simp only [List.filterMap_nil, occ_nil, Nat.add_zero] at hocc
  have hperm := perm_of_occ _ _ hocc
  have hn : (runPool env proxyutils cfg (initState proxyutils reg) l).origins.countP
      (fun p => decide (baseLabel env cfg p = some X)) = n := by
    rw [← namesWithLabel_length env cfg X _ _ h4, hperm.length_eq, List.length_map,
      List.length_range]
  rw [hn]
  exact hperm

end Names

/-! ## The run -/

theorem collected_nil (env : Env) : collected env [] = [] := by
  unfold collected
  split <;> rfl

theorem Check_of_fetched {ρ : Type} (env : Env) (nm : Names ρ) (cfg : Config) (reg : ρ)
    (fetched : List Proxy) (hfetch : GetProxyFromSubs env cfg = .returned (.ok fetched))
    (hp : cfg.PrintProgress = false) :
    Check env nm cfg reg = .returned
      { results := collected env
          (runPool env nm cfg (initState nm reg) (env.DeduplicateProxies fetched)).shared.results
        err := none
        final :=
          (runPool env nm cfg (initState nm reg) (env.DeduplicateProxies fetched)).shared } := by
  simp [Check, hfetch, printerCanPanic, hp]

/-- What line 181 returns: the Results sent, or all of them but the last one. -/
theorem Check_returns_sent_or_all_but_last {ρ : Type} (env : Env) (nm : Names ρ)
    (cfg : Config) (reg : ρ) (run : Run ρ) (h : Check env nm cfg reg = .returned run)
    (herr : run.err = none) :
    run.results = run.final.results ∨ run.results = run.final.results.dropLast := by
  unfold Check at h
  simp only [] at h
  split at h
  · exact absurd h (by simp)
  · exact absurd h (by simp)
  · simp only [Exec.returned.injEq] at h
    subst h
    simp at herr
  · split at h
    · exact absurd h (by simp)
    · simp only [Exec.returned.injEq] at h
      subst h
      simp only [collected]
      split
      · exact Or.inl rfl
      · exact Or.inr rfl

/-- C5 (as the code has it). When the subscriptions yield candidates but
`DeduplicateProxies` returns the empty list, `Check` (progress printing off) starts no
worker and returns an empty result list with a nil error. The "no usable nodes" error is
returned when the subscriptions yield no candidate at all, before deduplication. -/
theorem C5_empty_after_dedup {ρ : Type} (env : Env) (nm : Names ρ) (cfg : Config) (reg : ρ) :
    (∀ fetched, GetProxyFromSubs env cfg = .returned (.ok fetched) →
      env.DeduplicateProxies fetched = [] → cfg.PrintProgress = false →
      Check env nm cfg reg =
        .returned { results := [], err := none, final := initState nm reg }) ∧
    (cfg.SubUrls ≠ [] → fetchSubs env cfg.SubUrls [] = .ok [] →
      Check env nm cfg reg =
        .returned { results := [], err := some "获取节点失败: 未找到任何可用节点",
                    final := initState nm reg }) := by
  constructor
  · intro fetched hfetch hd hp
    rw [Check_of_fetched env nm cfg reg fetched hfetch hp, hd, runPool_nil]
    simp only []
    rw [show (initState nm reg).results = [] from rfl, collected_nil]
  · intro hne hf
    have hlen : cfg.SubUrls.length ≠ 0 := by
      simpa using hne
    simp [Check, GetProxyFromSubs, hlen, hf, initState]

/-- C5 at a subscription whose only entry has no identity fields. -/
theorem C5_empty_after_dedup_witness :
    GetProxyFromSubs unusableEnv sampleCfg = .returned (.ok [brokenProxy]) ∧
    Check unusableEnv proxyutils sampleCfg [] =
      .returned { results := [], err := none, final := initState proxyutils [] } :=
  ⟨rfl, (C5_empty_after_dedup unusableEnv proxyutils sampleCfg []).1 [brokenProxy] rfl
    (by decide) (by decide)⟩

/-- C5 as stated fails: the fetched list is `[brokenProxy]`, deduplication returns the
empty list, and `Check` returns an empty result list with a nil error. -/
theorem C5_no_error_when_dedup_empties :
    unusableEnv.DeduplicateProxies [brokenProxy] = [] ∧
    sampleCfg.PrintProgress = false ∧
    Check unusableEnv proxyutils sampleCfg [] =
      .returned { results := [], err := none, final := initState proxyutils [] } := by
  decide

/-- C10 (as the code has it). With progress printing off and a configured concurrency of
at least one, `Check` returns only after the pool has stopped with the task queue empty
and no worker inside the loop body: every candidate of the deduplicated list has been
received and run through the per-candidate flow (one `CreateClient` call each), and a
Result has been sent for exactly the candidates that bind and pass both gating checks,
each Result being the one of its candidate. With a concurrency of zero or less no worker
is started: every task stays queued, no Result is sent and `Check` returns the empty list
with a nil error. -/
theorem C10_all_tasks_processed {ρ : Type} (env : Env) (nm : Names ρ) (cfg : Config)
    (reg : ρ) (fetched : List Proxy)
    (hfetch : GetProxyFromSubs env cfg = .returned (.ok fetched))
    (hp : cfg.PrintProgress = false) :
    (1 ≤ cfg.Concurrent →
      (∃ run, Check env nm cfg reg = .returned run ∧ run.err = none ∧
        run.final = (runPool env nm cfg (initState nm reg)
          (env.DeduplicateProxies fetched)).shared) ∧
      (runPool env nm cfg (initState nm reg) (env.DeduplicateProxies fetched)).tasks = [] ∧
      (runPool env nm cfg (initState nm reg) (env.DeduplicateProxies fetched)).busy = [] ∧
      (runPool env nm cfg (initState nm reg)
        (env.DeduplicateProxies fetched)).shared.trace.count Event.CreateClient =
          (env.DeduplicateProxies fetched).length ∧
      (runPool env nm cfg (initState nm reg) (env.DeduplicateProxies fetched)).origins.Perm
        ((env.DeduplicateProxies fetched).filter (passesGate env cfg)) ∧
      List.Forall₂ (IsResultOf env cfg)
        (runPool env nm cfg (initState nm reg) (env.DeduplicateProxies fetched)).origins
        (runPool env nm cfg (initState nm reg)
          (env.DeduplicateProxies fetched)).shared.results) ∧
    (cfg.Concurrent ≤ 0 →
      runPool env nm cfg (initState nm reg) (env.DeduplicateProxies fetched) =
        { shared := initState nm reg, tasks := env.DeduplicateProxies fetched, busy := [],
          origins := [] } ∧
      Check env nm cfg reg =
        .returned { results := [], err := none, final := initState nm reg }) := by
  constructor
  · intro hc
    obtain ⟨done, h0, hbusy, hdone, h1, -, -, -, -, hperm, hres⟩ :=
      runPool_final env nm cfg reg (env.DeduplicateProxies fetched)
    have hd := hdone hc
    subst hd
    refine ⟨⟨_, Check_of_fetched env nm cfg reg fetched hfetch hp, rfl, rfl⟩,
      (runPool_done env nm cfg _ _).2 hc, hbusy, h1, hperm, hres⟩
  · intro hc
    have hrun := runPool_no_worker env nm cfg (initState nm reg)
      (env.DeduplicateProxies fetched) hc
    refine ⟨hrun, ?_⟩
    rw [Check_of_fetched env nm cfg reg fetched hfetch hp, hrun]
    simp only []
    rw [show (initState nm reg).results = [] from rfl, collected_nil]

/-- C10 at the sample subscription: both candidates are processed and a Result is sent
for each. -/
theorem C10_all_tasks_processed_witness :
    GetProxyFromSubs sampleEnv sampleCfg = .returned (.ok [sampleProxy, sampleProxy2]) ∧
    (runPool sampleEnv proxyutils sampleCfg (initState proxyutils [])
      (sampleEnv.DeduplicateProxies [sampleProxy, sampleProxy2])).tasks = [] ∧
    (runPool sampleEnv proxyutils sampleCfg (initState proxyutils [])
      (sampleEnv.DeduplicateProxies [sampleProxy, sampleProxy2])).origins.Perm
        ((sampleEnv.DeduplicateProxies [sampleProxy, sampleProxy2]).filter
          (passesGate sampleEnv sampleCfg)) :=
  ⟨rfl,
   ((C10_all_tasks_processed sampleEnv proxyutils sampleCfg [] [sampleProxy, sampleProxy2]
      rfl (by decide)).1 (by decide)).2.1,
   ((C10_all_tasks_processed sampleEnv proxyutils sampleCfg [] [sampleProxy, sampleProxy2]
      rfl (by decide)).1 (by decide)).2.2.2.2.1⟩

/-- C10 as stated fails for concurrency zero: both candidates of the non-empty
deduplicated list bind and pass both gating checks, yet `Check` returns no Result and no
task was received. -/
theorem C10_zero_concurrency_processes_nothing :
    zeroCfg.Concurrent = 0 ∧
    (sampleEnv.DeduplicateProxies [sampleProxy, sampleProxy2]).filter
      (passesGate sampleEnv zeroCfg) = [sampleProxy, sampleProxy2] ∧
    Check sampleEnv proxyutils zeroCfg [] =
      .returned { results := [], err := none, final := initState proxyutils [] } := by
  decide

/-! ## The counters -/

section Counters

variable {ρ : Type} (env : Env) (nm : Names ρ) (cfg : Config)

theorem countP_passes_le_binds (l : List Proxy) :
    l.countP (passesGate env cfg) ≤ l.countP (binds env cfg) :=
  List.countP_mono_left fun p _ hp => passesGate_imp_binds env cfg p hp

/-- The counters after a loop over fewer than 2^31 tasks, from the initial state. -/
theorem counters_after (reg : ρ) (l : List Proxy) (hl : l.length < 2147483648) :
    (workerLoop env nm cfg (initState nm reg) l).progress = l.countP (binds env cfg) ∧
    (workerLoop env nm cfg (initState nm reg) l).availableCount =
      l.countP (passesGate env cfg) ∧
    (workerLoop env nm cfg (initState nm reg) l).results.length =
      l.countP (passesGate env cfg) := by
  have hb : l.countP (binds env cfg) ≤ l.length := List.countP_le_length _
  have hp := countP_passes_le_binds env cfg l
  refine ⟨?_, ?_, ?_⟩
  · rw [loop_progress, iterate_bump_small _ _ (by simp [initState]) (by simp [initState]; omega)]
    simp [initState]
  · rw [loop_available,
      iterate_bump_small _ _ (by simp [initState]) (by simp [initState]; omega)]
    simp [initState]
  · rw [loop_results, List.length_append, emittedFrom_length]
    simp [initState]

end Counters

/-- The counters when the pool has run over fewer than 2^31 tasks. -/
theorem runPool_counters_small {ρ : Type} (env : Env) (nm : Names ρ) (cfg : Config)
    (reg : ρ) (l : List Proxy) (hl : l.length < 2147483648) :
    ((runPool env nm cfg (initState nm reg) l).shared.availableCount =
      (runPool env nm cfg (initState nm reg) l).shared.results.length) ∧
    (runPool env nm cfg (initState nm reg) l).shared.availableCount ≤
      (runPool env nm cfg (initState nm reg) l).shared.progress ∧
    (runPool env nm cfg (initState nm reg) l).shared.progress ≤ l.length ∧
    (1 ≤ cfg.Concurrent →
      (runPool env nm cfg (initState nm reg) l).shared.progress =
        l.countP (binds env cfg)) := by
  obtain ⟨done, h0, -, hdone, -, -, hprog, havail, hres, -, -⟩ :=
    runPool_final env nm cfg reg l
  have hlen : done.length ≤ l.length := by
    have := congrArg List.length h0
    rw [List.length_append] at this
    omega
  have hb : done.countP (binds env cfg) ≤ done.length := List.countP_le_length _
  have hpb := countP_passes_le_binds env cfg done
  rw [iterate_bump_small _ _ (by omega) (by omega)] at hprog havail
  simp only [zero_add] at hprog havail
  rw [hprog, havail, hres]
  refine ⟨rfl, by exact_mod_cast hpb, by exact_mod_cast (by omega), fun hc => ?_⟩
  rw [hdone hc]

/-- The counters when the pool has run with at least one configured worker, whatever the
number of tasks. -/
theorem runPool_counters {ρ : Type} (env : Env) (nm : Names ρ) (cfg : Config)
    (reg : ρ) (l : List Proxy) (hc : 1 ≤ cfg.Concurrent) :
    (runPool env nm cfg (initState nm reg) l).shared.progress =
      (fun x => wrap32 (x + 1))^[l.countP (binds env cfg)] 0 ∧
    (runPool env nm cfg (initState nm reg) l).shared.availableCount =
      (fun x => wrap32 (x + 1))^[l.countP (passesGate env cfg)] 0 ∧
    (runPool env nm cfg (initState nm reg) l).shared.results.length =
      l.countP (passesGate env cfg) := by
  obtain ⟨done, -, -, hdone, -, -, hprog, havail, hres, -, -⟩ :=
    runPool_final env nm cfg reg l
  have hd := hdone hc
  subst hd
  exact ⟨hprog, havail, hres⟩

theorem manyProxies_length : manyProxies.length = 2147483648 := by
  simp [manyProxies]

theorem manyProxies_ne_nil : manyProxies ≠ [] := by
  intro h
  have := manyProxies_length
  rw [h] at this
  simp at this

theorem iterate_bump_wrap :
    (fun x : Int => wrap32 (x + 1))^[2147483648] 0 = -2147483648 := by
  have h := Function.iterate_succ_apply' (fun x : Int => wrap32 (x + 1)) 2147483647 0
  rw [iterate_bump_small 2147483647 0 (by omega) (by omega)] at h
  rw [show (2147483648 : Nat) = Nat.succ 2147483647 from rfl, h]
  decide

theorem appendProxyMaps_map_some (acc l : List Proxy) :
    appendProxyMaps acc (l.map some) = acc ++ l := by
  induction l generalizing acc with
  | nil => simp [appendProxyMaps]
  | cons p rest ih => simp [appendProxyMaps, ih]

theorem dedupFrom_of_nodup (l : List Proxy)
    (seen : List (Value × Value × Value × Option Value × Option Value))
    (hnd : (l.map fingerprint).Nodup) (hsome : ∀ p ∈ l, fingerprint p ≠ none)
    (hseen : ∀ p ∈ l, ∀ f, fingerprint p = some f → f ∉ seen) : dedupFrom seen l = l := by
  induction l generalizing seen with
  | nil => rfl
  | cons p rest ih =>
    rw [List.map_cons, List.nodup_cons] at hnd
    cases hf : fingerprint p with
    | none => exact absurd hf (hsome p (List.mem_cons_self _ _))
    | some f =>
      have hnot : f ∉ seen := hseen p (List.mem_cons_self _ _) f hf
      have hrest : dedupFrom (f :: seen) rest = rest := by
        apply ih (f :: seen) hnd.2 (fun q hq => hsome q (List.mem_cons_of_mem _ hq))
        intro q hq g hg
        rw [List.mem_cons, not_or]
        refine ⟨?_, hseen q (List.mem_cons_of_mem _ hq) g hg⟩
        rintro rfl
        exact hnd.1 (List.mem_map.2 ⟨q, hq, by rw [hg, hf]⟩)
      simp [dedupFrom, hf, hnot, hrest]

theorem manyProxies_dedup : DeduplicateProxies manyProxies = manyProxies := by
  apply dedupFrom_of_nodup
  · unfold manyProxies
    rw [List.map_map]
    apply (List.nodup_range _).map
    intro i j h
    simp only [Function.comp, fingerprint, mapGet] at h
    simp at h
    have hd := congrArg String.data h
    simp only [String.data_append, List.append_cancel_left_eq] at hd
    exact toString_nat_injective i j (String.ext hd)
  · intro p hp
    simp only [manyProxies, List.mem_map] at hp
    obtain ⟨i, -, rfl⟩ := hp
    simp [fingerprint, mapGet]
  · intro p _ f _
    exact List.not_mem_nil f

/-- One subscription that lists the maps of `l` and nothing else yields `l`. -/
theorem fetched_single (env : Env) (cfg : Config) (url : String) (l : List Proxy)
    (hu : cfg.SubUrls = [url]) (hf : env.fetch = fun _ => .document (.list (l.map some)))
    (hl : l ≠ []) : GetProxyFromSubs env cfg = .returned (.ok l) := by
  have hlen : ¬ l.length = 0 := by
    simpa using hl
  simp [GetProxyFromSubs, hu, fetchSubs, hf, appendProxyMaps_map_some, hlen]

theorem manyProxies_bind : ∀ p ∈ manyProxies, binds manyDownEnv sampleCfg p = true := by
  intro p hp
  simp only [manyProxies, List.mem_map] at hp
  obtain ⟨i, -, rfl⟩ := hp
  simp [binds, CreateClient, manyDownEnv, manyEnv, sampleEnv, mapGet]

/-- The run of `Check` on one subscription whose maps `l` all survive deduplication,
with progress printing off: it returns when the pool over `l` has stopped. -/
theorem Check_single (env : Env) (cfg : Config) (url : String) (l : List Proxy)
    (hu : cfg.SubUrls = [url]) (hf : env.fetch = fun _ => .document (.list (l.map some)))
    (hl : l ≠ []) (hd : env.DeduplicateProxies = DeduplicateProxies)
    (hdl : DeduplicateProxies l = l) (hp : cfg.PrintProgress = false) :
    Check env proxyutils cfg [] = .returned
      { results := collected env
          (runPool env proxyutils cfg (initState proxyutils []) l).shared.results
        err := none
        final := (runPool env proxyutils cfg (initState proxyutils []) l).shared } := by
  rw [Check_of_fetched env proxyutils cfg [] l (fetched_single env cfg url l hu hf hl) hp,
    hd, hdl]

/-- C7 (as the code has it). For a run over fewer than 2^31 deduplicated candidates with
configured concurrency at least one and progress printing off: when `Check` returns,
`progress` equals the number of deduplicated candidates for which `CreateClient`
succeeded; and, taking the run as the sequence of per-candidate worker steps in any order
of the candidates, a candidate whose client cannot be built produces no Result and changes
neither counter, and a bindable candidate that fails the first gating check increments
`progress` by exactly one, leaves `availableCount` unchanged and produces no Result. -/
theorem C7_attempted_counter {ρ : Type} (env : Env) (nm : Names ρ) (cfg : Config)
    (reg : ρ) (fetched : List Proxy)
    (hfetch : GetProxyFromSubs env cfg = .returned (.ok fetched))
    (hc : 1 ≤ cfg.Concurrent)
    (hsize : (env.DeduplicateProxies fetched).length < 2147483648)
    (hp : cfg.PrintProgress = false) :
    (∃ run, Check env nm cfg reg = .returned run ∧
      run.final.progress = (env.DeduplicateProxies fetched).countP (binds env cfg)) ∧
    (∀ order : List Proxy, order.Perm (env.DeduplicateProxies fetched) →
      ∀ done p rest, done ++ p :: rest = order →
      (CreateClient env cfg p = none →
        (workerBody env nm cfg (workerLoop env nm cfg (initState nm reg) done) p).results =
          (workerLoop env nm cfg (initState nm reg) done).results ∧
        (workerBody env nm cfg (workerLoop env nm cfg (initState nm reg) done) p).progress =
          (workerLoop env nm cfg (initState nm reg) done).progress ∧
        (workerBody env nm cfg
            (workerLoop env nm cfg (initState nm reg) done) p).availableCount =
          (workerLoop env nm cfg (initState nm reg) done).availableCount) ∧
      (∀ c, CreateClient env cfg p = some c → env.CheckCloudflare c ≠ (true, none) →
        (workerBody env nm cfg (workerLoop env nm cfg (initState nm reg) done) p).progress =
          (workerLoop env nm cfg (initState nm reg) done).progress + 1 ∧
        (workerBody env nm cfg
            (workerLoop env nm cfg (initState nm reg) done) p).availableCount =
          (workerLoop env nm cfg (initState nm reg) done).availableCount ∧
        (workerBody env nm cfg (workerLoop env nm cfg (initState nm reg) done) p).results =
          (workerLoop env nm cfg (initState nm reg) done).results)) := by
  constructor
  · exact ⟨_, Check_of_fetched env nm cfg reg fetched hfetch hp,
      (runPool_counters_small env nm cfg reg (env.DeduplicateProxies fetched) hsize).2.2.2 hc⟩
  · intro order hperm done p rest h
    have hlen : done.length + (rest.length + 1) = (env.DeduplicateProxies fetched).length := by
      rw [← hperm.length_eq, ← h, List.length_append, List.length_cons]
    constructor
    · intro hn
      rw [workerBody_unbound env nm cfg _ p hn]
      exact ⟨rfl, rfl, rfl⟩
    · intro c hcl hcf
      rw [workerBody_cloudflare_fail env nm cfg _ p c hcl hcf]
      refine ⟨?_, rfl, rfl⟩
      obtain ⟨h₁, -, -⟩ := counters_after env nm cfg reg done (by omega)
      have hb : done.countP (binds env cfg) ≤ done.length := List.countP_le_length _
      simp only []
      rw [h₁, wrap32_of_range _ (by omega) (by omega)]

/-- C7 at the sample subscription with the first gating check failing: both candidates
bind, `progress` ends at two. -/
theorem C7_attempted_counter_witness :
    GetProxyFromSubs cloudflareDownEnv sampleCfg =
      .returned (.ok [sampleProxy, sampleProxy2]) ∧
    ∃ run, Check cloudflareDownEnv proxyutils sampleCfg [] = .returned run ∧
      run.final.progress =
        (cloudflareDownEnv.DeduplicateProxies [sampleProxy, sampleProxy2]).countP
          (binds cloudflareDownEnv sampleCfg) :=
  ⟨rfl, (C7_attempted_counter cloudflareDownEnv proxyutils sampleCfg []
    [sampleProxy, sampleProxy2] rfl (by decide) (by decide) (by decide)).1⟩

/-- C7 as stated fails on a run of `Check` with two workers over 2^31 deduplicated
candidates that all bind (and here all fail the first gating check): `CreateClient`
succeeded for 2^31 candidates while the `int32` counter `progress` ends at -2^31. -/
theorem C7_progress_wraps :
    DeduplicateProxies manyProxies = manyProxies ∧
    manyProxies.countP (binds manyDownEnv sampleCfg) = 2147483648 ∧
    Check manyDownEnv proxyutils sampleCfg [] = .returned
      { results := collected manyDownEnv
          (runPool manyDownEnv proxyutils sampleCfg (initState proxyutils [])
            manyProxies).shared.results
        err := none
        final := (runPool manyDownEnv proxyutils sampleCfg (initState proxyutils [])
          manyProxies).shared } ∧
    (runPool manyDownEnv proxyutils sampleCfg (initState proxyutils [])
      manyProxies).shared.progress = -2147483648 := by
  have hcount : manyProxies.countP (binds manyDownEnv sampleCfg) = 2147483648 := by
    rw [List.countP_eq_length.2 manyProxies_bind, manyProxies_length]
  have hrun := runPool_counters manyDownEnv proxyutils sampleCfg [] manyProxies (by decide)
  refine ⟨manyProxies_dedup, hcount,
    Check_single manyDownEnv sampleCfg "sub" manyProxies rfl rfl manyProxies_ne_nil rfl
      manyProxies_dedup rfl, ?_⟩
  rw [hrun.1, hcount]
  exact iterate_bump_wrap

/-! ## Name de-collision through the pool -/

/-- A candidate that does not pass the gate leaves the registry alone. -/
theorem dropped_skips_rename {ρ : Type} (env : Env) (nm : Names ρ) (cfg : Config)
    (st : State ρ) (p : Proxy) (hp : passesGate env cfg p = false) :
    (workerBody env nm cfg st p).registry = st.registry ∧
    ∃ evs, (workerBody env nm cfg st p).trace = st.trace ++ evs ∧ Event.Rename ∉ evs := by
  rcases body_cases env nm cfg st p with
    ⟨_, _, hw⟩ | ⟨_, _, evs, hw, rfl | rfl⟩ | ⟨_, hpass, _⟩
  · exact ⟨by rw [hw], _, by rw [hw], by decide⟩
  · exact ⟨by rw [hw], _, by rw [hw], by decide⟩
  · exact ⟨by rw [hw], _, by rw [hw], by decide⟩
  · rw [hp] at hpass
    exact absurd hpass (by decide)

/-- C4. With the registry behaving as the spec describes (reset at the start of `Check`,
`Rename` returning the label on first use and label-(k+1) when the stored counter is k):
when the pool of `Check` has stopped, if N candidates passed both gating checks, had their
Result sent and resolved to the base label X, then the display names of those N Results
are, up to order, X, X-2, X-3, ..., X-N; these names are pairwise distinct and X is among
them exactly once (for N >= 1). The candidates whose Result was sent all pass the gate,
each Result is the one of its candidate, with a configured concurrency of at least one
they are all the candidates that pass the gate, and with progress printing off `Check`
returns with that state. A candidate dropped by a bind failure or a gating failure does
not call `Rename` and leaves the registry unchanged. -/
theorem C4_name_decollision (env : Env) (cfg : Config) (reg : Registry)
    (fetched : List Proxy) (X : String)
    (hfetch : GetProxyFromSubs env cfg = .returned (.ok fetched)) :
    (namesWithLabel env cfg X
        (runPool env proxyutils cfg (initState proxyutils reg)
          (env.DeduplicateProxies fetched)).origins
        (runPool env proxyutils cfg (initState proxyutils reg)
          (env.DeduplicateProxies fetched)).shared.results).Perm
      ((List.range ((runPool env proxyutils cfg (initState proxyutils reg)
        (env.DeduplicateProxies fetched)).origins.countP
          fun p => decide (baseLabel env cfg p = some X))).map (suffixed X)) ∧
    ((List.range ((runPool env proxyutils cfg (initState proxyutils reg)
      (env.DeduplicateProxies fetched)).origins.countP
        fun p => decide (baseLabel env cfg p = some X))).map (suffixed X)).Nodup ∧
    (1 ≤ (runPool env proxyutils cfg (initState proxyutils reg)
        (env.DeduplicateProxies fetched)).origins.countP
          (fun p => decide (baseLabel env cfg p = some X)) →
      ((List.range ((runPool env proxyutils cfg (initState proxyutils reg)
        (env.DeduplicateProxies fetched)).origins.countP
          fun p => decide (baseLabel env cfg p = some X))).map (suffixed X)).count X = 1) ∧
    List.Forall₂ (IsResultOf env cfg)
      (runPool env proxyutils cfg (initState proxyutils reg)
        (env.DeduplicateProxies fetched)).origins
      (runPool env proxyutils cfg (initState proxyutils reg)
        (env.DeduplicateProxies fetched)).shared.results ∧
    (∀ p ∈ (runPool env proxyutils cfg (initState proxyutils reg)
      (env.DeduplicateProxies fetched)).origins, passesGate env cfg p = true) ∧
    (1 ≤ cfg.Concurrent →
      (runPool env proxyutils cfg (initState proxyutils reg)
        (env.DeduplicateProxies fetched)).origins.Perm
          ((env.DeduplicateProxies fetched).filter (passesGate env cfg))) ∧
    (cfg.PrintProgress = false →
      ∃ run, Check env proxyutils cfg reg = .returned run ∧
        run.final = (runPool env proxyutils cfg (initState proxyutils reg)
          (env.DeduplicateProxies fetched)).shared) ∧
    (∀ (st : State Registry) (p : Proxy), passesGate env cfg p = false →
      (workerBody env proxyutils cfg st p).registry = st.registry ∧
      ∃ evs, (workerBody env proxyutils cfg st p).trace = st.trace ++ evs ∧
        Event.Rename ∉ evs) := by
  obtain ⟨done, -, -, hdone, -, -, -, -, -, hperm, hres⟩ :=
    runPool_final env proxyutils cfg reg (env.DeduplicateProxies fetched)
  refine ⟨runPool_names env cfg X reg (env.DeduplicateProxies fetched), suffixed_nodup X _,
    suffixed_count_base X _, hres, ?_, ?_, ?_,
    fun st p hp => dropped_skips_rename env proxyutils cfg st p hp⟩
  · intro p hp
    have := (hperm.mem_iff).1 hp
    exact (List.mem_filter.1 this).2
  · intro hc
    rw [hdone hc] at hperm
    exact hperm
  · intro hp
    exact ⟨_, Check_of_fetched env proxyutils cfg reg fetched hfetch hp, rfl⟩

/-- C4 at the sample subscription: both candidates resolve to "US". -/
theorem C4_name_decollision_witness :
    GetProxyFromSubs sampleEnv sampleCfg = .returned (.ok [sampleProxy, sampleProxy2]) ∧
    (namesWithLabel sampleEnv sampleCfg "US"
        (runPool sampleEnv proxyutils sampleCfg (initState proxyutils [])
          (sampleEnv.DeduplicateProxies [sampleProxy, sampleProxy2])).origins
        (runPool sampleEnv proxyutils sampleCfg (initState proxyutils [])
          (sampleEnv.DeduplicateProxies [sampleProxy, sampleProxy2])).shared.results).Perm
      ((List.range ((runPool sampleEnv proxyutils sampleCfg (initState proxyutils [])
        (sampleEnv.DeduplicateProxies [sampleProxy, sampleProxy2])).origins.countP
          fun p => decide (baseLabel sampleEnv sampleCfg p = some "US"))).map
        (suffixed "US")) :=
  ⟨rfl, (C4_name_decollision sampleEnv sampleCfg [] [sampleProxy, sampleProxy2] "US" rfl).1⟩

/-! ## Runs of the sample subscription -/

/-- Scenario C of the spec with one worker moving at a time: the names are "US" and
"US-2", and the registry left by an earlier run is reset. -/
theorem scenario_two_survivors_same_label :
    Check sampleEnv proxyutils sampleCfg [("US", 7)] =
      .returned
        { results := [sampleResult,
            { Proxy := [("type", .str "trojan"), ("server", .str "h2.example"),
                        ("port", .int 8443), ("name", .str "US-2")]
              Openai := true, Youtube := false, Netflix := true, Google := true
              Cloudflare := true, Disney := false }]
          err := none
          final :=
            { progress := 2, availableCount := 2, registry := [("US", 2)]
              results := [sampleResult,
                { Proxy := [("type", .str "trojan"), ("server", .str "h2.example"),
                            ("port", .int 8443), ("name", .str "US-2")]
                  Openai := true, Youtube := false, Netflix := true, Google := true
                  Cloudflare := true, Disney := false }]
              trace := passEvents ++ passEvents } } := by
  decide

/-- Two workers, the second renaming after the first and sending before it: the Result
named "US-2" is sent first, and it is the Result of the second candidate. -/
theorem scenario_second_worker_overtakes :
    (runPool overtakingEnv proxyutils sampleCfg (initState proxyutils [])
      [sampleProxy, sampleProxy2]).shared.results.map displayName = ["US-2", "US"] ∧
    (runPool overtakingEnv proxyutils sampleCfg (initState proxyutils [])
      [sampleProxy, sampleProxy2]).origins = [sampleProxy2, sampleProxy] ∧
    (runPool overtakingEnv proxyutils sampleCfg (initState proxyutils [])
      [sampleProxy, sampleProxy2]).shared.registry = [("US", 2)] := by
  decide

/-- The collector's last `append` not yet visible at line 181: two Results were sent,
`Check` returns the first only. -/
theorem scenario_last_result_not_collected :
    Check lateCollectorEnv proxyutils sampleCfg [] =
      .returned
        { results := [sampleResult]
          err := none
          final :=
            (runPool lateCollectorEnv proxyutils sampleCfg (initState proxyutils [])
              [sampleProxy, sampleProxy2]).shared } ∧
    (runPool lateCollectorEnv proxyutils sampleCfg (initState proxyutils [])
      [sampleProxy, sampleProxy2]).shared.results.length = 2 := by
  decide

/-- Progress printing on and no candidate left after deduplication: a poll of the
printer that reaches line 82 brings the process down. -/
theorem scenario_printer_panics_without_candidates :
    Check { unusableEnv with printerPanics := true } proxyutils
        { sampleCfg with PrintProgress := true } [] =
      .panicked "strings: negative Repeat count" := by
  decide

end MihomoCheck
